import Mathlib

/-!
# PrePrepareMsg: the consensus proposal message of the BFT engine

A shallow embedding of `bftengine/src/bftengine/messages/PrePrepareMsg.hpp`.
The packed `Header` becomes a structure of naturals, `uint16_t` arithmetic is
arithmetic on `Nat` reduced modulo `2^16`, and every inline member function of
the class becomes a function on the message state.

The test replica of `bftengine/tests/bcstatetransfer/test_replica.hpp` follows
in the namespace `bcst`: its two data members are the state, each method a
function on it.
-/

namespace PrePrepareMsg

/-- One octet of a message buffer. -/
abbrev Byte := Fin 256

/-- A digest is a block of `DIGEST_SIZE` raw octets (`Digest.hpp`). -/
abbrev Digest := List Byte

/-- The packed `PrePrepareMsg::Header`, fields in declared order. -/
structure Header where
  /-- The envelope header `MessageBase::Header`, kept as its raw octets. -/
  header : List Byte
  viewNum : Nat
  seqNum : Nat
  epochNum : Nat
  /-- A `uint16_t`: bit 0 null/non-null, bit 1 ready, bits 2-3 first commit
  path, bits 4-5 message variant. -/
  flags : Nat
  batchCidLength : Nat
  timeDataLength : Nat
  digestOfRequests : Digest
  numberOfRequests : Nat
  endLocationOfLastRequest : Nat
deriving DecidableEq, Repr

end PrePrepareMsg

/-- A message: the header overlaid on the start of the buffer (`b()`), followed
by the batch region holding the requests. -/
structure PrePrepareMsg where
  /-- The header, as returned by `b()`. -/
  b : PrePrepareMsg.Header
  /-- Octets reserved for the batch region (constructor argument `size`). -/
  capacity : Nat
  /-- The octets of the batch region written so far. -/
  batch : List PrePrepareMsg.Byte
deriving DecidableEq, Repr

namespace PrePrepareMsg

/-- Width in octets of `ViewNum viewNum`, a 64-bit integer. -/
def sizeofViewNum : Nat := 8

/-- Width in octets of `SeqNum seqNum`, a 64-bit integer. -/
def sizeofSeqNum : Nat := 8

/-- Width in octets of `EpochNum epochNum`, a 64-bit integer. -/
def sizeofEpochNum : Nat := 8

/-- Width in octets of `uint16_t flags`. -/
def sizeofFlags : Nat := 2

/-- Width in octets of `uint64_t batchCidLength`. -/
def sizeofBatchCidLength : Nat := 8

/-- Width in octets of `uint32_t timeDataLength`. -/
def sizeofTimeDataLength : Nat := 4

/-- Width in octets of `uint16_t numberOfRequests`. -/
def sizeofNumberOfRequests : Nat := 2

/-- Width in octets of `uint32_t endLocationOfLastRequest`. -/
def sizeofEndLocationOfLastRequest : Nat := 4

/-- Field widths of `Header` in declared order, for an envelope header of
`envelope` octets and a digest of `digestSize` octets. -/
def headerFieldWidths (envelope digestSize : Nat) : List Nat :=
  [envelope, sizeofViewNum, sizeofSeqNum, sizeofEpochNum, sizeofFlags, sizeofBatchCidLength,
    sizeofTimeDataLength, digestSize, sizeofNumberOfRequests, sizeofEndLocationOfLastRequest]

/-- Value of `sizeof(Header)` under `#pragma pack(push, 1)`: the fields are laid
out back to back, so the size is the sum of the field widths. -/
def sizeofHeader (envelope digestSize : Nat) : Nat :=
  (headerFieldWidths envelope digestSize).sum

/-- Right-hand side of the `static_assert` on `sizeof(Header)`. -/
def staticAssertSize (digestSize : Nat) : Nat :=
  6 + 8 + 8 + 8 + 2 + 4 + digestSize + 2 + 4 + 8

/-- The constant `prePrepareHeaderPrefix`. -/
def prePrepareHeaderPrefix (envelope digestSize : Nat) : Nat :=
  sizeofHeader envelope digestSize - sizeofNumberOfRequests - sizeofEndLocationOfLastRequest

/-- Getter `viewNumber()`. -/
def viewNumber (m : PrePrepareMsg) : Nat := m.b.viewNum

/-- Setter `setViewNumber(v)`. -/
def setViewNumber (m : PrePrepareMsg) (v : Nat) : PrePrepareMsg :=
  { m with b := { m.b with viewNum := v } }

/-- Getter `seqNumber()`. -/
def seqNumber (m : PrePrepareMsg) : Nat := m.b.seqNum

/-- Setter `setSeqNumber(s)`. -/
def setSeqNumber (m : PrePrepareMsg) (s : Nat) : PrePrepareMsg :=
  { m with b := { m.b with seqNum := s } }

/-- Query `isNull()`: `(flags & 0x1) == 0`. -/
def isNull (m : PrePrepareMsg) : Bool := (m.b.flags &&& 0x1) == 0

/-- Getter `digestOfRequests()`. -/
def digestOfRequests (m : PrePrepareMsg) : Digest := m.b.digestOfRequests

/-- Setter `setDigestOfRequests(d)`. -/
def setDigestOfRequests (m : PrePrepareMsg) (d : Digest) : PrePrepareMsg :=
  { m with b := { m.b with digestOfRequests := d } }

/-- Getter `numberOfRequests()`. -/
def numberOfRequests (m : PrePrepareMsg) : Nat := m.b.numberOfRequests

/-- Setter `setNumberOfRequests(n)`; `n` is a `uint16_t`. -/
def setNumberOfRequests (m : PrePrepareMsg) (n : Nat) : PrePrepareMsg :=
  { m with b := { m.b with numberOfRequests := n } }

/-- Mutator `setDataPPFlag()`: `flags |= 32`, stored back into 16 bits. -/
def setDataPPFlag (m : PrePrepareMsg) : PrePrepareMsg :=
  { m with b := { m.b with flags := (m.b.flags ||| 32) % 2 ^ 16 } }

/-- Query `isDataPPFlagSet()`: `((flags >> 4) & 0x2) == 0x2`. -/
def isDataPPFlagSet (m : PrePrepareMsg) : Bool :=
  let flags := m.b.flags
  ((flags >>> 4) &&& 0x2) == 0x2

/-- Mutator `setConsensusOnlyFlag()`: `flags |= 16`, stored back into 16 bits. -/
def setConsensusOnlyFlag (m : PrePrepareMsg) : PrePrepareMsg :=
  { m with b := { m.b with flags := (m.b.flags ||| 16) % 2 ^ 16 } }

/-- Two's-complement `~x` on a 32-bit `int` whose value `x` is non-negative,
read as an unsigned bit pattern. -/
def bitNot32 (x : Nat) : Nat := 2 ^ 32 - 1 - x

/-- Mutator `resetConsensusOnlyFlag()`: `flags &= ~(1 << 4); flags &= ~(1 << 5);`
each result stored back into 16 bits. -/
def resetConsensusOnlyFlag (m : PrePrepareMsg) : PrePrepareMsg :=
  let flags1 := (m.b.flags &&& bitNot32 (1 <<< 4)) % 2 ^ 16
  let flags2 := (flags1 &&& bitNot32 (1 <<< 5)) % 2 ^ 16
  { m with b := { m.b with flags := flags2 } }

/-- Query `isConsensusPPFlagSet()`: `((flags >> 4) & 0x1) == 0x1`. -/
def isConsensusPPFlagSet (m : PrePrepareMsg) : Bool :=
  let flags := m.b.flags
  ((flags >>> 4) &&& 0x1) == 0x1

/-- Query `isLegacyPPMsg()`: `(flags >> 4) == 0`. -/
def isLegacyPPMsg (m : PrePrepareMsg) : Bool :=
  let flags := m.b.flags
  (flags >>> 4) == 0

/-- Query `isReady()`: `((flags >> 1) & 0x1) == 1`. -/
def isReady (m : PrePrepareMsg) : Bool := ((m.b.flags >>> 1) &&& 0x1) == 1

/-- Query `shouldValidateAsync()`. -/
def shouldValidateAsync (_m : PrePrepareMsg) : Bool := true

/-- A message whose header is all zero except for the given flags word. -/
def ofFlags (f : Nat) : PrePrepareMsg :=
  { b := { header := [], viewNum := 0, seqNum := 0, epochNum := 0, flags := f,
           batchCidLength := 0, timeDataLength := 0, digestOfRequests := [],
           numberOfRequests := 0, endLocationOfLastRequest := 0 },
    capacity := 0, batch := [] }

/-- The 2-bit message-variant sub-field (bits 4-5 of the flags). -/
def variantCode (m : PrePrepareMsg) : Nat := (m.b.flags >>> 4) % 4

/-- The reserved bits 6-15 of the flags are all zero. -/
def ReservedBitsZero (m : PrePrepareMsg) : Prop := m.b.flags >>> 6 = 0

instance (m : PrePrepareMsg) : Decidable (ReservedBitsZero m) := by
  unfold ReservedBitsZero; infer_instance

/-- The 2-bit first-commit-path sub-field (bits 2-3 of the flags). -/
def commitPathCode (m : PrePrepareMsg) : Nat := (m.b.flags >>> 2) % 4

/-- Messages `m` and `n` agree everywhere outside flag bits 4 and 5: every other
flag bit, the queries that read those bits, and every other part of the
message. -/
def AgreeOutsideVariant (m n : PrePrepareMsg) : Prop :=
  (∀ i, i ≠ 4 → i ≠ 5 → n.b.flags.testBit i = m.b.flags.testBit i) ∧
  n.b.flags < 2 ^ 16 ∧
  isNull n = isNull m ∧ isReady n = isReady m ∧
  commitPathCode n = commitPathCode m ∧
  n.b.flags >>> 6 = m.b.flags >>> 6 ∧
  (ReservedBitsZero m → ReservedBitsZero n) ∧
  viewNumber n = viewNumber m ∧ seqNumber n = seqNumber m ∧
  digestOfRequests n = digestOfRequests m ∧ numberOfRequests n = numberOfRequests m ∧
  n = { m with b := { m.b with flags := n.b.flags } }

/-- One call to a mutator of the message-variant sub-field. -/
inductive VariantCall where
  | setDataPPFlag
  | setConsensusOnlyFlag
  | resetConsensusOnlyFlag
deriving DecidableEq, Repr

/-- Effect of a single variant-mutator call. -/
def VariantCall.apply : VariantCall → PrePrepareMsg → PrePrepareMsg
  | .setDataPPFlag, m => m.setDataPPFlag
  | .setConsensusOnlyFlag, m => m.setConsensusOnlyFlag
  | .resetConsensusOnlyFlag, m => m.resetConsensusOnlyFlag

/-- Effect of a finite sequence of variant-mutator calls, first call first. -/
def applyCalls (m : PrePrepareMsg) (calls : List VariantCall) : PrePrepareMsg :=
  calls.foldl (fun acc c => c.apply acc) m

/-- The call does not set the second variant bit next to the first:
`setDataPPFlag()` is made on a message that is not hash-only and
`setConsensusOnlyFlag()` on a message that is not data-only. -/
def VariantCall.Exclusive : VariantCall → PrePrepareMsg → Prop
  | .setDataPPFlag, m => m.isConsensusPPFlagSet = false
  | .setConsensusOnlyFlag, m => m.isDataPPFlagSet = false
  | .resetConsensusOnlyFlag, _ => True

/-- Every call of the sequence is exclusive at the state it is made in. -/
def CallsExclusive : PrePrepareMsg → List VariantCall → Prop
  | _, [] => True
  | m, c :: cs => c.Exclusive m ∧ CallsExclusive (c.apply m) cs

instance (c : VariantCall) (m : PrePrepareMsg) : Decidable (c.Exclusive m) := by
  cases c <;> unfold VariantCall.Exclusive <;> infer_instance

instance decCallsExclusive :
    (m : PrePrepareMsg) → (calls : List VariantCall) → Decidable (CallsExclusive m calls)
  | _, [] => isTrue trivial
  | m, c :: cs =>
    have := decCallsExclusive (c.apply m) cs
    inferInstanceAs (Decidable (c.Exclusive m ∧ CallsExclusive (c.apply m) cs))

/-- The invariant "a null proposal is sealed": `isNull()` implies `isReady()`. -/
def NullImpliesReady (m : PrePrepareMsg) : Prop := isNull m = true → isReady m = true

instance (m : PrePrepareMsg) : Decidable (NullImpliesReady m) := by
  unfold NullImpliesReady; infer_instance

/-! ## Parts of the class defined outside the header

The header only declares the constructors, `firstPath`, `updateView`,
`computeFlagsForPrePrepareMsg`, `remainingSizeForRequests`, `addRequest`,
`finishAddingRequests` and the members of `RequestsIterator`. Their bodies are
modelled from the specification of the message layer. -/

/-- Modelled from the spec: the enum `CommitPath` (declared in
`PrimitiveTypes.hpp`), "OPTIMISTIC_FAST | FAST_WITH_THRESHOLD | SLOW". -/
inductive CommitPath where
  | OPTIMISTIC_FAST
  | FAST_WITH_THRESHOLD
  | SLOW
deriving DecidableEq, Repr

/-- Modelled from the spec: the 2-bit code of a commit path, "00
optimistic-fast, 01 fast-with-threshold, 10 slow" (also the bit-layout comment
of `Header`). -/
def CommitPath.code : CommitPath → Nat
  | .OPTIMISTIC_FAST => 0
  | .FAST_WITH_THRESHOLD => 1
  | .SLOW => 2

/-- Modelled from the spec: `computeFlagsForPrePrepareMsg(isNull, isReady,
firstPath)`, whose body is missing; the flags word laid out as "bit 0: 0 = null
proposal, 1 = non-null; bit 1: 0 = not sealed, 1 = sealed/ready; bits 2-3:
first commit path", all other bits zero. -/
def computeFlagsForPrePrepareMsg (isNull isReady : Bool) (firstPath : CommitPath) : Nat :=
  (if isNull then 0 else 1) ||| ((if isReady then 1 else 0) <<< 1) ||| (firstPath.code <<< 2)

/-- Modelled from the spec: the constructor `PrePrepareMsg(sender, v, s,
firstPath, size)`, whose body is missing; "constructed with a target capacity
(bytes reserved for the batch region), an initiating replica identity, view,
sequence, and a chosen first commit path". The message starts non-null, not
sealed and empty; the sender lives in the envelope, which is not interpreted
here, and the fields the spec does not fix are zero. -/
def create (_sender : Nat) (v s : Nat) (firstPath : CommitPath) (size : Nat) : PrePrepareMsg :=
  { b := { header := [], viewNum := v, seqNum := s, epochNum := 0,
           flags := computeFlagsForPrePrepareMsg false false firstPath,
           batchCidLength := 0, timeDataLength := 0, digestOfRequests := [],
           numberOfRequests := 0, endLocationOfLastRequest := 0 },
    capacity := size, batch := [] }

/-- Modelled from the spec: `firstPath()`, whose body is missing; "decodes the
2-bit commit-path sub-field into the CommitPath enum". The undefined code 11
decodes to nothing. -/
def firstPath (m : PrePrepareMsg) : Option CommitPath :=
  match (m.b.flags >>> 2) &&& 0x3 with
  | 0 => some .OPTIMISTIC_FAST
  | 1 => some .FAST_WITH_THRESHOLD
  | 2 => some .SLOW
  | _ => none

/-- Modelled from the spec: `updateView(v, firstPath)`, whose body is missing;
"rewrites the view and commit-path sub-field in place without touching digest,
request content, or sealed state". Rebinding the view of an unsealed message is
a builder-contract violation, a fatal failure: no message results. -/
def updateView (m : PrePrepareMsg) (v : Nat) (firstPath : CommitPath) : Option PrePrepareMsg :=
  if isReady m then
    some { m with b := { m.b with
      viewNum := v
      flags := ((m.b.flags &&& (2 ^ 16 - 1 - (0x3 <<< 2))) ||| (firstPath.code <<< 2)) % 2 ^ 16 } }
  else none

/-- The call `updateView(v)` with the commit path omitted: the declaration in
the header gives the parameter the default `CommitPath::SLOW`. -/
def updateViewDefault (m : PrePrepareMsg) (v : Nat) : Option PrePrepareMsg :=
  updateView m v CommitPath.SLOW

/-- Modelled from the spec: how a RequestRecord, "an opaque, length-tagged byte
blob", declares its length. The spec leaves the layout of the tag open, so the
reader of the tag is a parameter: `declaredLength bytes` is the length in
octets, tag included, of the record that starts `bytes`, when a tag can be read
there. No tag can be read from no octets. -/
structure RecordFormat where
  declaredLength : List Byte → Option Nat
  declaredLength_nil : declaredLength [] = none

/-- Modelled from the spec: a RequestRecord, "an opaque, length-tagged byte
blob representing one client request": octets whose tag declares their own
number, whatever follows them in the buffer. -/
structure RequestRecord (fmt : RecordFormat) where
  bytes : List Byte
  tagged : ∀ rest : List Byte, fmt.declaredLength (bytes ++ rest) = some bytes.length

/-- A record format for examples: the first octet of a record is the length of
the record. -/
def firstOctetFormat : RecordFormat :=
  { declaredLength := fun bytes =>
      match bytes with
      | [] => none
      | b :: _ => some b.val
    declaredLength_nil := rfl }

/-- The record of `firstOctetFormat` with the given payload after its length
octet. -/
def firstOctetRecord (payload : List Byte) (h : payload.length + 1 < 256) :
    RequestRecord firstOctetFormat :=
  { bytes := ⟨payload.length + 1, h⟩ :: payload
    tagged := fun _ => rfl }

/-- The batch region holding the given requests back to back. -/
def recordsOf : List (List Byte) → List Byte
  | [] => []
  | blob :: rest => blob ++ recordsOf rest

/-- Total size in octets of the given requests. -/
def recordsSize : List (List Byte) → Nat
  | [] => 0
  | blob :: rest => blob.length + recordsSize rest

/-- Modelled from the spec: `remainingSizeForRequests()`, whose body is missing;
"capacity minus bytes already appended", returned as a `uint32_t`. -/
def remainingSizeForRequests (m : PrePrepareMsg) : Nat :=
  (m.capacity - m.b.endLocationOfLastRequest) % 2 ^ 32

/-- Modelled from the spec: `addRequest(pRequest, requestSize)`, whose body is
missing; "appends one opaque length-tagged record; fails (rejects, does not
corrupt state) if it would exceed reserved capacity". The request is the
record: its `requestSize` octets are appended as they are, and the capacity is
the "total size of all requests that will be added". The running end offset
and request count are the header fields `endLocationOfLastRequest` (32 bits)
and `numberOfRequests` (16 bits). -/
def addRequest (m : PrePrepareMsg) (pRequest : List Byte) : Option PrePrepareMsg :=
  let requestSize := pRequest.length
  if requestSize ≤ remainingSizeForRequests m then
    some { m with
      batch := m.batch ++ pRequest
      b := { m.b with
        endLocationOfLastRequest := (m.b.endLocationOfLastRequest + requestSize) % 2 ^ 32
        numberOfRequests := (m.b.numberOfRequests + 1) % 2 ^ 16 } }
  else none

/-- The calls `addRequest` for each request, in order; fails as soon as one
call fails. -/
def addRequests : PrePrepareMsg → List (List Byte) → Option PrePrepareMsg
  | m, [] => some m
  | m, blob :: rest =>
    match addRequest m blob with
    | some n => addRequests n rest
    | none => none

/-- Modelled from the spec: `finishAddingRequests()`, whose body is missing;
"computes and stores `digestOfRequests` via the Digest Oracle over exactly the
appended bytes, sets `numberOfRequests` and `endLocationOfLastRequest`, sets the
sealed flag". The count and end offset already hold their final values.
Sealing twice is a builder-contract violation: no message results. -/
def finishAddingRequests (calculateDigest : List Byte → Digest) (m : PrePrepareMsg) :
    Option PrePrepareMsg :=
  if isReady m then none
  else
    some { m with b := { m.b with
      digestOfRequests := calculateDigest (m.batch.take m.b.endLocationOfLastRequest)
      flags := (m.b.flags ||| 2) % 2 ^ 16 } }

/-- A message as the constructor leaves it: not sealed, no request appended. -/
def Fresh (m : PrePrepareMsg) : Prop :=
  isReady m = false ∧ m.b.numberOfRequests = 0 ∧ m.b.endLocationOfLastRequest = 0 ∧ m.batch = []

instance (m : PrePrepareMsg) : Decidable (Fresh m) := by
  unfold Fresh; infer_instance

end PrePrepareMsg

/-- The class `RequestsIterator`: the message walked and the cursor `currLoc`,
an offset into the batch region. -/
structure RequestsIterator where
  msg : PrePrepareMsg
  currLoc : Nat
deriving DecidableEq, Repr

namespace RequestsIterator

open PrePrepareMsg

/-- Modelled from the spec: the constructor `RequestsIterator(m)`, whose body is
missing; the cursor starts at the start of the batch region. -/
def create (m : PrePrepareMsg) : RequestsIterator := { msg := m, currLoc := 0 }

/-- Modelled from the spec: `restart()`, "resets the cursor to the start of the
batch region". -/
def restart (it : RequestsIterator) : RequestsIterator := { it with currLoc := 0 }

/-- Modelled from the spec: `end()`, true when "the cursor has reached
`endLocationOfLastRequest`". -/
def atEnd (it : RequestsIterator) : Bool :=
  decide (it.msg.b.endLocationOfLastRequest ≤ it.currLoc)

/-- Modelled from the spec: the bounds discipline of the iterator. The declared
length of the record at the cursor, as its tag gives it within the region
`[0, endLocationOfLastRequest)`, provided the cursor is not at the end, a tag
can be read there, and "the declared record length does not run past
`endLocationOfLastRequest`". -/
def currentLength (fmt : RecordFormat) (it : RequestsIterator) : Option Nat :=
  if it.atEnd then none
  else
    match fmt.declaredLength
        ((it.msg.batch.take it.msg.b.endLocationOfLastRequest).drop it.currLoc) with
    | some len =>
      if it.currLoc + len ≤ it.msg.b.endLocationOfLastRequest then some len
      else none
    | none => none

/-- Modelled from the spec: `getCurrent(pRequest)`, "returns the record at the
cursor without advancing, or signals at end". -/
def getCurrent (fmt : RecordFormat) (it : RequestsIterator) : Option (List Byte) :=
  match it.currentLength fmt with
  | some len => some ((it.msg.batch.drop it.currLoc).take len)
  | none => none

/-- Modelled from the spec: `gotoNext()`, "moves the cursor past the current
record's length-prefixed extent"; on a malformed record iteration stops. -/
def gotoNext (fmt : RecordFormat) (it : RequestsIterator) : RequestsIterator :=
  match it.currentLength fmt with
  | some len => { it with currLoc := it.currLoc + len }
  | none => { it with currLoc := it.msg.b.endLocationOfLastRequest }

/-- Modelled from the spec: `getAndGoToNext(pRequest)`: the current record, if
there is one, and the iterator advanced past it. -/
def getAndGoToNext (fmt : RecordFormat) (it : RequestsIterator) :
    Option (List Byte) × RequestsIterator :=
  match it.getCurrent fmt with
  | some r => (some r, it.gotoNext fmt)
  | none => (none, it)

/-- The loop "`getAndGoToNext` until end", run for at most `fuel` rounds: the
records it yields, in order. -/
def collect (fmt : RecordFormat) : Nat → RequestsIterator → List (List Byte)
  | 0, _ => []
  | fuel + 1, it =>
    match it.getAndGoToNext fmt with
    | (some r, next) => r :: collect fmt fuel next
    | (none, _) => []

/-- All requests of a message: the loop run with one round more than the batch
region has octets, which is more rounds than it can hold records. -/
def requests (fmt : RecordFormat) (m : PrePrepareMsg) : List (List Byte) :=
  collect fmt (m.b.endLocationOfLastRequest + 1) (create m)

end RequestsIterator

/-! ## The test replica of the state-transfer tests

A shallow embedding of `bftengine/tests/bcstatetransfer/test_replica.hpp`. -/

namespace bcst

open PrePrepareMsg (Byte)

/-- The call `memcpy(dest, src, n)`: the first `n` octets of `dest` are replaced
by the first `n` octets of `src`. -/
def memcpy (dest src : List Byte) (n : Nat) : List Byte :=
  src.take n ++ dest.drop n

/-- The expression `new char[size]`: a buffer of `size` octets. Its initial
content is indeterminate; zeros stand for it. -/
def newCharArray (size : Nat) : List Byte := List.replicate size 0

/-- The class `Msg`, a state transfer message. -/
structure Msg where
  data_ : List Byte
  len_ : Nat
  to_ : Nat
deriving DecidableEq, Repr

/-- The constructor `Msg(data, size, destReplicaId)`: `data_{new char[size]}`,
`len_(size)`, `to_(destReplicaId)`, then `memcpy(data_.get(), data, size)`. -/
def Msg.create (data : List Byte) (size : Nat) (destReplicaId : Nat) : Msg :=
  { data_ := memcpy (newCharArray size) data size, len_ := size, to_ := destReplicaId }

/-- The class `TestReplica`: its two data members. -/
structure TestReplica where
  /-- All messages sent by the state transfer module, a `std::deque<Msg>`. -/
  sent_messages_ : List Msg
  onTransferringCompleteCalled_ : Bool
deriving DecidableEq, Repr

namespace TestReplica

/-- The constructor `TestReplica()`: `onTransferringCompleteCalled_(false)`, the
deque default-constructed empty. -/
def create : TestReplica := { sent_messages_ := [], onTransferringCompleteCalled_ := false }

/-- Method `onTransferringComplete(checkpointNumberOfNewState)`. -/
def onTransferringComplete (r : TestReplica) (_checkpointNumberOfNewState : Nat) : TestReplica :=
  { r with onTransferringCompleteCalled_ := true }

/-- Method `freeStateTransferMsg(m)`: `delete m`; no member is touched. -/
def freeStateTransferMsg (r : TestReplica) (_m : List Byte) : TestReplica := r

/-- Method `sendStateTransferMessage(m, size, replicaId)`:
`sent_messages_.emplace_back(Msg(m, size, replicaId))`. -/
def sendStateTransferMessage (r : TestReplica) (m : List Byte) (size : Nat) (replicaId : Nat) :
    TestReplica :=
  { r with sent_messages_ := r.sent_messages_ ++ [Msg.create m size replicaId] }

/-- Method `changeStateTransferTimerPeriod(timerPeriodMilli)`: empty body. -/
def changeStateTransferTimerPeriod (r : TestReplica) (_timerPeriodMilli : Nat) : TestReplica := r

/-- Method `addOneShotTimer(timeoutMilli)`: returns a default `Handle`; no
member is touched. -/
def addOneShotTimer (r : TestReplica) (_timeoutMilli : Nat) : TestReplica := r

/-- Method `checkForKeyExchange()`: empty body. -/
def checkForKeyExchange (r : TestReplica) : TestReplica := r

/-- One call to a method of `TestReplica`, with its arguments. -/
inductive Call where
  | onTransferringComplete (checkpointNumberOfNewState : Nat)
  | freeStateTransferMsg (m : List Byte)
  | sendStateTransferMessage (m : List Byte) (size : Nat) (replicaId : Nat)
  | changeStateTransferTimerPeriod (timerPeriodMilli : Nat)
  | addOneShotTimer (timeoutMilli : Nat)
  | checkForKeyExchange
deriving DecidableEq, Repr

/-- Effect of one call on the replica. -/
def step (r : TestReplica) : Call → TestReplica
  | .onTransferringComplete c => r.onTransferringComplete c
  | .freeStateTransferMsg m => r.freeStateTransferMsg m
  | .sendStateTransferMessage m size replicaId => r.sendStateTransferMessage m size replicaId
  | .changeStateTransferTimerPeriod p => r.changeStateTransferTimerPeriod p
  | .addOneShotTimer t => r.addOneShotTimer t
  | .checkForKeyExchange => r.checkForKeyExchange

/-- Effect of a finite sequence of calls, first call first. -/
def run (r : TestReplica) (calls : List Call) : TestReplica :=
  calls.foldl step r

/-- The arguments of one `sendStateTransferMessage` call. -/
structure Send where
  m : List Byte
  size : Nat
  replicaId : Nat
deriving DecidableEq, Repr

/-- The call that makes the given send. -/
def Send.call (s : Send) : Call := .sendStateTransferMessage s.m s.size s.replicaId

/-- The entry a send is expected to leave in `sent_messages_`: a copy of the
first `size` octets of `m`, the size and the destination. -/
def Send.entry (s : Send) : Msg := { data_ := s.m.take s.size, len_ := s.size, to_ := s.replicaId }

/-- The sends among a sequence of calls, in call order. -/
def sendsOf : List Call → List Send
  | [] => []
  | .sendStateTransferMessage m size replicaId :: rest =>
    { m := m, size := size, replicaId := replicaId } :: sendsOf rest
  | _ :: rest => sendsOf rest

/-- The call is an `onTransferringComplete` call. -/
def Call.isComplete : Call → Bool
  | .onTransferringComplete _ => true
  | _ => false

end TestReplica

end bcst

namespace PrePrepareMsg

/-- Offset of the `k`-th field of a packed struct with the given field widths:
the fields before it lie back to back from offset 0. -/
def offsetOfField (widths : List Nat) (k : Nat) : Nat := (widths.take k).sum

/-- Position of `numberOfRequests` among the fields of `Header`, counted from 0. -/
def indexOfNumberOfRequests : Nat := 8

/-- Modelled from the spec: the reason codes of a rejection, "BadFlags,
RegionOverrun, MalformedRecord, CountMismatch, DigestMismatch". -/
inductive ValidationError where
  | BadFlags
  | RegionOverrun
  | MalformedRecord
  | CountMismatch
  | DigestMismatch
deriving DecidableEq, Repr

deriving instance DecidableEq for Except

/-- Modelled from the spec: step 3 of validation, "walk the batch with the
Requests Iterator, counting records", for at most `fuel` records. The count, or
nothing if "iteration detects a malformed record". -/
def countRecords (fmt : RecordFormat) : Nat → RequestsIterator → Option Nat
  | 0, it => if it.atEnd then some 0 else none
  | fuel + 1, it =>
    if it.atEnd then some 0
    else
      match it.currentLength fmt with
      | some _ =>
        match countRecords fmt fuel (it.gotoNext fmt) with
        | some k => some (k + 1)
        | none => none
      | none => none

/-- Modelled from the spec: the checks of `validate`, whose body is missing.
"1. Reject if any reserved flag bit is set, or if the message-variant/
commit-path sub-fields hold an undefined code. 2. Reject if
`endLocationOfLastRequest` exceeds the message's total allocated size. 3. Walk
the batch with the Requests Iterator, counting records; reject if the count
disagrees with `numberOfRequests`, or if iteration detects a malformed record.
4. Recompute the digest over `[0, endLocationOfLastRequest)`; reject if it
disagrees with the stored `digestOfRequests` (for a null message, reject unless
the stored digest equals the canonical null digest). 5. Otherwise accept." -/
def validateChecks (fmt : RecordFormat) (calculateDigest : List Byte → Digest)
    (digestOfNullPrePrepareMsg : Digest) (m : PrePrepareMsg) : Except ValidationError Unit :=
  if ¬ ReservedBitsZero m ∨ variantCode m = 3 ∨ commitPathCode m = 3 then
    .error .BadFlags
  else if m.capacity < m.b.endLocationOfLastRequest then
    .error .RegionOverrun
  else
    match countRecords fmt (m.b.endLocationOfLastRequest + 1) (RequestsIterator.create m) with
    | none => .error .MalformedRecord
    | some count =>
      if count ≠ numberOfRequests m then .error .CountMismatch
      else if isNull m then
        if digestOfRequests m = digestOfNullPrePrepareMsg then .ok () else .error .DigestMismatch
      else if calculateDigest (m.batch.take m.b.endLocationOfLastRequest) = digestOfRequests m then
        .ok ()
      else .error .DigestMismatch

/-- Modelled from the spec: `validate(replicasInfo)`, whose body is missing. The
outcome of the checks together with the message after the call; the method is
declared `const`, "validation never mutates the message". -/
def validate {ReplicasInfo : Type} (fmt : RecordFormat) (calculateDigest : List Byte → Digest)
    (digestOfNullPrePrepareMsg : Digest) (m : PrePrepareMsg) (_replicasInfo : ReplicasInfo) :
    Except ValidationError Unit × PrePrepareMsg :=
  (validateChecks fmt calculateDigest digestOfNullPrePrepareMsg m, m)

/-- Messages `m` and `n` agree on everything the four field setters do not
write: the flags and every query reading them, the envelope, `epochNum`,
`batchCidLength`, `timeDataLength`, `endLocationOfLastRequest` and the batch
region. -/
def AgreeOutsideFields (m n : PrePrepareMsg) : Prop :=
  n.b.flags = m.b.flags ∧
  isNull n = isNull m ∧ isReady n = isReady m ∧
  isLegacyPPMsg n = isLegacyPPMsg m ∧ isConsensusPPFlagSet n = isConsensusPPFlagSet m ∧
  isDataPPFlagSet n = isDataPPFlagSet m ∧
  n.b.header = m.b.header ∧ n.b.epochNum = m.b.epochNum ∧
  n.b.batchCidLength = m.b.batchCidLength ∧ n.b.timeDataLength = m.b.timeDataLength ∧
  n.b.endLocationOfLastRequest = m.b.endLocationOfLastRequest ∧
  n.capacity = m.capacity ∧ n.batch = m.batch

/-! ## Bit-level facts about the flags word -/

theorem isNull_eq_testBit (m : PrePrepareMsg) : isNull m = !m.b.flags.testBit 0 := by
  unfold isNull
  rw [Bool.eq_iff_iff]
  simp [Nat.testBit_to_div_mod, Nat.and_one_is_mod]

theorem isReady_eq_testBit (m : PrePrepareMsg) : isReady m = m.b.flags.testBit 1 := by
  unfold isReady
  rw [Bool.eq_iff_iff]
  simp [Nat.testBit_to_div_mod, Nat.and_one_is_mod, Nat.shiftRight_eq_div_pow]

theorem isConsensusPPFlagSet_eq_testBit (m : PrePrepareMsg) :
    isConsensusPPFlagSet m = m.b.flags.testBit 4 := by
  unfold isConsensusPPFlagSet
  rw [Bool.eq_iff_iff]
  simp [Nat.testBit_to_div_mod, Nat.and_one_is_mod, Nat.shiftRight_eq_div_pow]

theorem isDataPPFlagSet_eq_testBit (m : PrePrepareMsg) :
    isDataPPFlagSet m = m.b.flags.testBit 5 := by
  unfold isDataPPFlagSet
  simp only []
  rw [show (0x2 : Nat) = 2 ^ 1 by rfl, Nat.and_two_pow, Nat.testBit_shiftRight]
  cases m.b.flags.testBit (4 + 1) <;> simp

theorem two_bits_eq (f k : Nat) :
    (f >>> k) % 4 = (f.testBit k).toNat + 2 * (f.testBit (k + 1)).toNat := by
  have h0 : f.testBit k = decide (f / 2 ^ k % 2 = 1) := Nat.testBit_to_div_mod
  have h1 : f.testBit (k + 1) = decide (f / 2 ^ k / 2 % 2 = 1) := by
    rw [Nat.testBit_to_div_mod, Nat.pow_succ, Nat.div_div_eq_div_mul]
  rw [h0, h1, Nat.shiftRight_eq_div_pow]
  generalize f / 2 ^ k = x
  by_cases a : x % 2 = 1 <;> by_cases c : x / 2 % 2 = 1 <;> simp [a, c] <;> omega

theorem variantCode_eq (m : PrePrepareMsg) :
    variantCode m = (m.b.flags.testBit 4).toNat + 2 * (m.b.flags.testBit 5).toNat :=
  two_bits_eq m.b.flags 4

theorem isLegacyPPMsg_iff_lt (m : PrePrepareMsg) : isLegacyPPMsg m = true ↔ m.b.flags < 16 := by
  unfold isLegacyPPMsg
  simp only [beq_iff_eq, Nat.shiftRight_eq_div_pow]
  omega

theorem lt_iff_testBit (f n : Nat) : f < 2 ^ n ↔ ∀ i, n ≤ i → f.testBit i = false := by
  constructor
  · intro h i hi
    exact Nat.testBit_lt_two_pow (lt_of_lt_of_le h (Nat.pow_le_pow_right (by norm_num) hi))
  · intro h
    exact Nat.lt_pow_two_of_testBit f h

theorem testBit_or_32 (f i : Nat) (hf : f < 2 ^ 16) :
    ((f ||| 32) % 2 ^ 16).testBit i = (f.testBit i || decide (i = 5)) := by
  rw [Nat.testBit_mod_two_pow, Nat.testBit_or, show (32 : Nat) = 2 ^ 5 by rfl, Nat.testBit_two_pow]
  by_cases h : i < 16
  · simp [h, eq_comm]
  · have h0 : f.testBit i = false := (lt_iff_testBit f 16).1 hf i (by omega)
    have h5 : ¬ i = 5 := by omega
    simp [h, h0, h5]

theorem testBit_or_16 (f i : Nat) (hf : f < 2 ^ 16) :
    ((f ||| 16) % 2 ^ 16).testBit i = (f.testBit i || decide (i = 4)) := by
  rw [Nat.testBit_mod_two_pow, Nat.testBit_or, show (16 : Nat) = 2 ^ 4 by rfl, Nat.testBit_two_pow]
  by_cases h : i < 16
  · simp [h, eq_comm]
  · have h0 : f.testBit i = false := (lt_iff_testBit f 16).1 hf i (by omega)
    have h4 : ¬ i = 4 := by omega
    simp [h, h0, h4]

theorem testBit_and_bitNot32 (f i k : Nat) (hk : k < 16) :
    ((f &&& bitNot32 (1 <<< k)) % 2 ^ 16).testBit i =
      (decide (i < 16) && (f.testBit i && !decide (i = k))) := by
  have hlt : 2 ^ k < 2 ^ 32 := Nat.pow_lt_pow_right (by norm_num) (by omega)
  have hrw : bitNot32 (1 <<< k) = 2 ^ 32 - (2 ^ k + 1) := by
    unfold bitNot32
    rw [Nat.shiftLeft_eq, Nat.one_mul]
    omega
  rw [Nat.testBit_mod_two_pow, Nat.testBit_and, hrw, Nat.testBit_two_pow_sub_succ hlt,
    Nat.testBit_two_pow]
  by_cases h : i < 16
  · have h32 : i < 32 := by omega
    simp [h, h32, eq_comm]
  · simp [h]

theorem testBit_reset (f i : Nat) :
    (((f &&& bitNot32 (1 <<< 4)) % 2 ^ 16 &&& bitNot32 (1 <<< 5)) % 2 ^ 16).testBit i =
      (decide (i < 16) && (f.testBit i && !decide (i = 4) && !decide (i = 5))) := by
  rw [testBit_and_bitNot32 _ i 5 (by norm_num), testBit_and_bitNot32 _ i 4 (by norm_num)]
  by_cases h : i < 16 <;> simp [h, Bool.and_assoc]

theorem agreeOutsideVariant_of_bits (m : PrePrepareMsg) (g : Nat) (hg : g < 2 ^ 16)
    (hbits : ∀ i, i ≠ 4 → i ≠ 5 → g.testBit i = m.b.flags.testBit i) :
    AgreeOutsideVariant m { m with b := { m.b with flags := g } } := by
  have h6 : g >>> 6 = m.b.flags >>> 6 := by
    apply Nat.eq_of_testBit_eq
    intro i
    rw [Nat.testBit_shiftRight, Nat.testBit_shiftRight]
    exact hbits _ (by omega) (by omega)
  refine ⟨hbits, hg, ?_, ?_, ?_, h6, ?_, rfl, rfl, rfl, rfl, rfl⟩
  · rw [isNull_eq_testBit, isNull_eq_testBit]
    exact congrArg _ (hbits 0 (by omega) (by omega))
  · rw [isReady_eq_testBit, isReady_eq_testBit]
    exact hbits 1 (by omega) (by omega)
  · unfold commitPathCode
    rw [two_bits_eq, two_bits_eq]
    show (g.testBit 2).toNat + 2 * (g.testBit 3).toNat = _
    rw [hbits 2 (by omega) (by omega), hbits 3 (by omega) (by omega)]
  · intro h
    unfold ReservedBitsZero at *
    show g >>> 6 = 0
    rw [h6, h]

theorem agree_setDataPPFlag (m : PrePrepareMsg) (hf : m.b.flags < 2 ^ 16) :
    AgreeOutsideVariant m (setDataPPFlag m) := by
  apply agreeOutsideVariant_of_bits m _ (Nat.mod_lt _ (by norm_num))
  intro i h4 h5
  rw [testBit_or_32 _ _ hf]
  simp [h5]

theorem agree_setConsensusOnlyFlag (m : PrePrepareMsg) (hf : m.b.flags < 2 ^ 16) :
    AgreeOutsideVariant m (setConsensusOnlyFlag m) := by
  apply agreeOutsideVariant_of_bits m _ (Nat.mod_lt _ (by norm_num))
  intro i h4 h5
  rw [testBit_or_16 _ _ hf]
  simp [h4]

theorem agree_resetConsensusOnlyFlag (m : PrePrepareMsg) (hf : m.b.flags < 2 ^ 16) :
    AgreeOutsideVariant m (resetConsensusOnlyFlag m) := by
  apply agreeOutsideVariant_of_bits m _ (Nat.mod_lt _ (by norm_num))
  intro i h4 h5
  rw [testBit_reset]
  by_cases h : i < 16
  · simp [h, h4, h5]
  · have h0 : m.b.flags.testBit i = false := (lt_iff_testBit _ 16).1 hf i (by omega)
    simp [h, h0]

/-! ## Decoding the flags -/

theorem isLegacyPPMsg_iff_high_bits (m : PrePrepareMsg) :
    isLegacyPPMsg m = true ↔ ∀ i, 4 ≤ i → m.b.flags.testBit i = false := by
  rw [isLegacyPPMsg_iff_lt]
  exact lt_iff_testBit _ 4

theorem isLegacyPPMsg_iff_bits45 (m : PrePrepareMsg) (hres : ReservedBitsZero m) :
    isLegacyPPMsg m = true ↔ m.b.flags.testBit 4 = false ∧ m.b.flags.testBit 5 = false := by
  rw [isLegacyPPMsg_iff_high_bits]
  constructor
  · intro h
    exact ⟨h 4 (by omega), h 5 (by omega)⟩
  · rintro ⟨h4, h5⟩ i hi
    by_cases e4 : i = 4
    · rw [e4]; exact h4
    by_cases e5 : i = 5
    · rw [e5]; exact h5
    have hlt : m.b.flags < 2 ^ 6 := by
      unfold ReservedBitsZero at hres
      rw [Nat.shiftRight_eq_div_pow] at hres
      exact (Nat.div_eq_zero_iff (by norm_num)).1 hres
    exact (lt_iff_testBit _ 6).1 hlt i (by omega)

/-- Claim C3, as the code has it: `isLegacyPPMsg()` is true exactly when bits
4-15 of the flags are all zero; so on every flags word whose reserved bits 6-15
are zero it is true exactly when bits 4-5 are 00. -/
theorem isLegacyPPMsg_decodes (m : PrePrepareMsg) :
    (isLegacyPPMsg m = true ↔ ∀ i, 4 ≤ i → m.b.flags.testBit i = false) ∧
    (ReservedBitsZero m →
      (isLegacyPPMsg m = true ↔
        m.b.flags.testBit 4 = false ∧ m.b.flags.testBit 5 = false)) :=
  ⟨isLegacyPPMsg_iff_high_bits m, isLegacyPPMsg_iff_bits45 m⟩

/-- Witness for `isLegacyPPMsg_decodes` at the flags word 0x13. -/
theorem isLegacyPPMsg_decodes_witness :
    ReservedBitsZero (ofFlags 0x13) ∧
    (isLegacyPPMsg (ofFlags 0x13) = true ↔
      (ofFlags 0x13).b.flags.testBit 4 = false ∧ (ofFlags 0x13).b.flags.testBit 5 = false) :=
  ⟨by decide, (isLegacyPPMsg_decodes (ofFlags 0x13)).2 (by decide)⟩

/-- Claim C3 fails as stated: the 16-bit flags word 64 has bits 4-5 equal to 00,
yet `isLegacyPPMsg()` is false on it. -/
theorem isLegacyPPMsg_not_bits45 :
    (ofFlags 64).b.flags < 2 ^ 16 ∧
    (ofFlags 64).b.flags.testBit 4 = false ∧ (ofFlags 64).b.flags.testBit 5 = false ∧
    isLegacyPPMsg (ofFlags 64) = false := by
  decide

/-- Claim C4: `isNull()` is true iff flag bit 0 is 0 and `isReady()` is true iff
flag bit 1 is 1; two flags words that agree on that bit give the same answer. -/
theorem isNull_isReady_decode (m : PrePrepareMsg) :
    (isNull m = true ↔ m.b.flags.testBit 0 = false) ∧
    (isReady m = true ↔ m.b.flags.testBit 1 = true) ∧
    (∀ n : PrePrepareMsg, n.b.flags.testBit 0 = m.b.flags.testBit 0 → isNull n = isNull m) ∧
    (∀ n : PrePrepareMsg, n.b.flags.testBit 1 = m.b.flags.testBit 1 → isReady n = isReady m) := by
  refine ⟨?_, ?_, ?_, ?_⟩
  · rw [isNull_eq_testBit]; simp
  · rw [isReady_eq_testBit]
  · intro n h
    rw [isNull_eq_testBit, isNull_eq_testBit, h]
  · intro n h
    rw [isReady_eq_testBit, isReady_eq_testBit, h]

/-- Witness for `isNull_isReady_decode`: the flags words 0xFFFE and 0 agree on
bit 0, the words 0xFFFF and 2 on bit 1. -/
theorem isNull_isReady_decode_witness :
    isNull (ofFlags 0xFFFE) = isNull (ofFlags 0) ∧
    isReady (ofFlags 0xFFFF) = isReady (ofFlags 2) :=
  ⟨(isNull_isReady_decode (ofFlags 0)).2.2.1 (ofFlags 0xFFFE) (by decide),
   (isNull_isReady_decode (ofFlags 2)).2.2.2 (ofFlags 0xFFFF) (by decide)⟩

/-- Claim C5: with a 6-byte envelope header and a 32-byte digest the packed
header is the sum of its field widths in declared order, 82 bytes, the value
the `static_assert` requires; the two sums agree for every digest width. -/
theorem sizeofHeader_eq_82 :
    headerFieldWidths 6 32 = [6, 8, 8, 8, 2, 8, 4, 32, 2, 4] ∧
    sizeofHeader 6 32 = 6 + 8 + 8 + 8 + 2 + 8 + 4 + 32 + 2 + 4 ∧
    sizeofHeader 6 32 = 82 ∧
    staticAssertSize 32 = 82 ∧
    (∀ digestSize, sizeofHeader 6 digestSize = staticAssertSize digestSize) := by
  refine ⟨by decide, by decide, by decide, by decide, fun digestSize => ?_⟩
  simp only [sizeofHeader, headerFieldWidths, staticAssertSize, sizeofViewNum, sizeofSeqNum,
    sizeofEpochNum, sizeofFlags, sizeofBatchCidLength, sizeofTimeDataLength,
    sizeofNumberOfRequests, sizeofEndLocationOfLastRequest, List.sum_cons, List.sum_nil]
  omega

/-- Claim C6: each of `setDataPPFlag()`, `setConsensusOnlyFlag()` and
`resetConsensusOnlyFlag()` leaves every flag bit other than bits 4 and 5
unchanged, hence `isNull()`, `isReady()`, the commit-path bits and the reserved
bits, and leaves view, sequence, digest and request count untouched. -/
theorem variant_mutators_frame (m : PrePrepareMsg) (hf : m.b.flags < 2 ^ 16) :
    AgreeOutsideVariant m (setDataPPFlag m) ∧
    AgreeOutsideVariant m (setConsensusOnlyFlag m) ∧
    AgreeOutsideVariant m (resetConsensusOnlyFlag m) :=
  ⟨agree_setDataPPFlag m hf, agree_setConsensusOnlyFlag m hf, agree_resetConsensusOnlyFlag m hf⟩

/-- Witness for `variant_mutators_frame` at the flags word 0xFFCF. -/
theorem variant_mutators_frame_witness :
    (ofFlags 0xFFCF).b.flags < 2 ^ 16 ∧
    AgreeOutsideVariant (ofFlags 0xFFCF) (setDataPPFlag (ofFlags 0xFFCF)) ∧
    AgreeOutsideVariant (ofFlags 0xFFCF) (setConsensusOnlyFlag (ofFlags 0xFFCF)) ∧
    AgreeOutsideVariant (ofFlags 0xFFCF) (resetConsensusOnlyFlag (ofFlags 0xFFCF)) :=
  ⟨by decide, variant_mutators_frame (ofFlags 0xFFCF) (by decide)⟩

/-- Claim C7: on a flags word whose reserved bits 6-15 are zero and whose bits
4-5 are not 11, exactly one of `isLegacyPPMsg()`, `isConsensusPPFlagSet()` and
`isDataPPFlagSet()` is true, the one matching the code in bits 4-5. -/
theorem variant_predicates_partition (m : PrePrepareMsg) (hres : ReservedBitsZero m)
    (hv : variantCode m ≠ 3) :
    (isLegacyPPMsg m = true ↔ variantCode m = 0) ∧
    (isConsensusPPFlagSet m = true ↔ variantCode m = 1) ∧
    (isDataPPFlagSet m = true ↔ variantCode m = 2) ∧
    ((isLegacyPPMsg m = true ∧ isConsensusPPFlagSet m = false ∧ isDataPPFlagSet m = false) ∨
     (isLegacyPPMsg m = false ∧ isConsensusPPFlagSet m = true ∧ isDataPPFlagSet m = false) ∨
     (isLegacyPPMsg m = false ∧ isConsensusPPFlagSet m = false ∧ isDataPPFlagSet m = true)) := by
  have hleg := isLegacyPPMsg_iff_bits45 m hres
  have hc := isConsensusPPFlagSet_eq_testBit m
  have hd := isDataPPFlagSet_eq_testBit m
  have hcode := variantCode_eq m
  rw [hcode] at hv ⊢
  rw [hc, hd]
  cases h4 : m.b.flags.testBit 4 <;> cases h5 : m.b.flags.testBit 5 <;>
    simp [h4, h5] at hv hleg ⊢ <;> simp [hleg]

/-- Witness for `variant_predicates_partition` at the data-only flags word 0x23. -/
theorem variant_predicates_partition_witness :
    ReservedBitsZero (ofFlags 0x23) ∧ variantCode (ofFlags 0x23) ≠ 3 ∧
    (isDataPPFlagSet (ofFlags 0x23) = true ↔ variantCode (ofFlags 0x23) = 2) :=
  ⟨by decide, by decide,
    (variant_predicates_partition (ofFlags 0x23) (by decide) (by decide)).2.2.1⟩

/-! ## The message-variant sub-field under its mutators -/

theorem variantCode_ne_three_iff (m : PrePrepareMsg) :
    variantCode m ≠ 3 ↔ ¬ (m.b.flags.testBit 4 = true ∧ m.b.flags.testBit 5 = true) := by
  rw [variantCode_eq]
  cases m.b.flags.testBit 4 <;> cases m.b.flags.testBit 5 <;> simp

theorem testBit_setDataPPFlag (m : PrePrepareMsg) (hf : m.b.flags < 2 ^ 16) (i : Nat) :
    (setDataPPFlag m).b.flags.testBit i = (m.b.flags.testBit i || decide (i = 5)) :=
  testBit_or_32 _ _ hf

theorem testBit_setConsensusOnlyFlag (m : PrePrepareMsg) (hf : m.b.flags < 2 ^ 16) (i : Nat) :
    (setConsensusOnlyFlag m).b.flags.testBit i = (m.b.flags.testBit i || decide (i = 4)) :=
  testBit_or_16 _ _ hf

theorem testBit_resetConsensusOnlyFlag (m : PrePrepareMsg) (i : Nat) :
    (resetConsensusOnlyFlag m).b.flags.testBit i =
      (decide (i < 16) && (m.b.flags.testBit i && !decide (i = 4) && !decide (i = 5))) :=
  testBit_reset _ _

theorem apply_flags_lt (c : VariantCall) (m : PrePrepareMsg) : (c.apply m).b.flags < 2 ^ 16 := by
  cases c <;> exact Nat.mod_lt _ (by norm_num)

theorem exclusive_step (c : VariantCall) (m : PrePrepareMsg) (hf : m.b.flags < 2 ^ 16)
    (hc : c.Exclusive m) : variantCode (c.apply m) ≠ 3 := by
  rw [variantCode_ne_three_iff]
  cases c
  · have hc4 : m.b.flags.testBit 4 = false := by
      rw [← isConsensusPPFlagSet_eq_testBit]; exact hc
    show ¬ ((setDataPPFlag m).b.flags.testBit 4 = true ∧ _)
    rw [testBit_setDataPPFlag m hf 4]
    simp [hc4]
  · have hc5 : m.b.flags.testBit 5 = false := by
      rw [← isDataPPFlagSet_eq_testBit]; exact hc
    show ¬ (_ ∧ (setConsensusOnlyFlag m).b.flags.testBit 5 = true)
    rw [testBit_setConsensusOnlyFlag m hf 5]
    simp [hc5]
  · show ¬ ((resetConsensusOnlyFlag m).b.flags.testBit 4 = true ∧ _)
    rw [testBit_resetConsensusOnlyFlag m 4]
    simp

theorem exclusive_calls (calls : List VariantCall) :
    ∀ m : PrePrepareMsg, m.b.flags < 2 ^ 16 → variantCode m ≠ 3 → CallsExclusive m calls →
      variantCode (applyCalls m calls) ≠ 3 := by
  induction calls with
  | nil => intro m _ hv _; exact hv
  | cons c cs ih =>
    intro m hf hv hok
    exact ih (c.apply m) (apply_flags_lt c m) (exclusive_step c m hf hok.1) hok.2

/-- Claim C1, amended: from a flags word whose bits 4-5 hold a valid variant
code, a finite sequence of variant-mutator calls in which `setDataPPFlag()` is
never made on a hash-only message and `setConsensusOnlyFlag()` never on a
data-only message leaves a valid code in bits 4-5; a set call made against that
rule produces the code 11. -/
theorem variant_valid_of_exclusive (m : PrePrepareMsg) (hf : m.b.flags < 2 ^ 16)
    (hv : variantCode m ≠ 3) (calls : List VariantCall) (hok : CallsExclusive m calls) :
    variantCode (applyCalls m calls) ≠ 3 ∧
    ¬ (isConsensusPPFlagSet (applyCalls m calls) = true ∧
        isDataPPFlagSet (applyCalls m calls) = true) ∧
    (isConsensusPPFlagSet m = true → variantCode (setDataPPFlag m) = 3) ∧
    (isDataPPFlagSet m = true → variantCode (setConsensusOnlyFlag m) = 3) := by
  have h := exclusive_calls calls m hf hv hok
  refine ⟨h, ?_, ?_, ?_⟩
  · rw [isConsensusPPFlagSet_eq_testBit, isDataPPFlagSet_eq_testBit]
    exact (variantCode_ne_three_iff _).1 h
  · intro h4
    rw [isConsensusPPFlagSet_eq_testBit] at h4
    rw [variantCode_eq, testBit_setDataPPFlag m hf 4, testBit_setDataPPFlag m hf 5, h4]
    simp
  · intro h5
    rw [isDataPPFlagSet_eq_testBit] at h5
    rw [variantCode_eq, testBit_setConsensusOnlyFlag m hf 4,
      testBit_setConsensusOnlyFlag m hf 5, h5]
    simp

/-- Witness for `variant_valid_of_exclusive`: data-only, back to legacy, then
hash-only, starting from the legacy flags word 0x0B. -/
theorem variant_valid_of_exclusive_witness :
    (ofFlags 0x0B).b.flags < 2 ^ 16 ∧ variantCode (ofFlags 0x0B) ≠ 3 ∧
    CallsExclusive (ofFlags 0x0B)
      [.setDataPPFlag, .resetConsensusOnlyFlag, .setConsensusOnlyFlag] ∧
    variantCode (applyCalls (ofFlags 0x0B)
      [.setDataPPFlag, .resetConsensusOnlyFlag, .setConsensusOnlyFlag]) ≠ 3 :=
  ⟨by decide, by decide, by decide,
    (variant_valid_of_exclusive (ofFlags 0x0B) (by decide) (by decide)
      [.setDataPPFlag, .resetConsensusOnlyFlag, .setConsensusOnlyFlag] (by decide)).1⟩

/-- Claim C1 fails as stated: from the legacy flags word 0, `setDataPPFlag()`
followed by `setConsensusOnlyFlag()` leaves bits 4-5 at 11, with both
`isConsensusPPFlagSet()` and `isDataPPFlagSet()` true. -/
theorem variant_code_three_reached :
    variantCode (ofFlags 0) = 0 ∧
    (applyCalls (ofFlags 0) [.setDataPPFlag, .setConsensusOnlyFlag]).b.flags = 48 ∧
    variantCode (applyCalls (ofFlags 0) [.setDataPPFlag, .setConsensusOnlyFlag]) = 3 ∧
    isConsensusPPFlagSet (applyCalls (ofFlags 0) [.setDataPPFlag, .setConsensusOnlyFlag]) = true ∧
    isDataPPFlagSet (applyCalls (ofFlags 0) [.setDataPPFlag, .setConsensusOnlyFlag]) = true := by
  decide

/-! ## Sealed messages and the header setters -/

theorem apply_agree (c : VariantCall) (m : PrePrepareMsg) (hf : m.b.flags < 2 ^ 16) :
    AgreeOutsideVariant m (c.apply m) := by
  cases c
  · exact agree_setDataPPFlag m hf
  · exact agree_setConsensusOnlyFlag m hf
  · exact agree_resetConsensusOnlyFlag m hf

/-- Claim C2, amended: on a sealed message every mutator defined in the header
keeps `isReady()` true and changes at most its own target. `setSeqNumber`,
`setDigestOfRequests` and `setNumberOfRequests` store their argument, with no
seal check, and leave the other two fields and the whole flags word unchanged;
the three variant mutators leave `seqNumber()`, `digestOfRequests()`,
`numberOfRequests()` and every flag bit other than bits 4-5 unchanged. -/
theorem sealed_header_mutators (m : PrePrepareMsg) (hf : m.b.flags < 2 ^ 16)
    (hready : isReady m = true) :
    (∀ s, isReady (setSeqNumber m s) = true ∧ seqNumber (setSeqNumber m s) = s ∧
      digestOfRequests (setSeqNumber m s) = digestOfRequests m ∧
      numberOfRequests (setSeqNumber m s) = numberOfRequests m ∧
      (setSeqNumber m s).b.flags = m.b.flags) ∧
    (∀ d, isReady (setDigestOfRequests m d) = true ∧
      digestOfRequests (setDigestOfRequests m d) = d ∧
      seqNumber (setDigestOfRequests m d) = seqNumber m ∧
      numberOfRequests (setDigestOfRequests m d) = numberOfRequests m ∧
      (setDigestOfRequests m d).b.flags = m.b.flags) ∧
    (∀ n, isReady (setNumberOfRequests m n) = true ∧
      numberOfRequests (setNumberOfRequests m n) = n ∧
      seqNumber (setNumberOfRequests m n) = seqNumber m ∧
      digestOfRequests (setNumberOfRequests m n) = digestOfRequests m ∧
      (setNumberOfRequests m n).b.flags = m.b.flags) ∧
    (∀ c : VariantCall, isReady (c.apply m) = true ∧
      seqNumber (c.apply m) = seqNumber m ∧
      digestOfRequests (c.apply m) = digestOfRequests m ∧
      numberOfRequests (c.apply m) = numberOfRequests m ∧
      ∀ i, i ≠ 4 → i ≠ 5 → (c.apply m).b.flags.testBit i = m.b.flags.testBit i) := by
  refine ⟨fun s => ⟨hready, rfl, rfl, rfl, rfl⟩, fun d => ⟨hready, rfl, rfl, rfl, rfl⟩,
    fun n => ⟨hready, rfl, rfl, rfl, rfl⟩, fun c => ?_⟩
  obtain ⟨hbits, -, -, hr, -, -, -, -, hs, hd, hn, -⟩ := apply_agree c m hf
  exact ⟨hr.trans hready, hs, hd, hn, hbits⟩

/-- Witness for `sealed_header_mutators` at the sealed flags word 0x0B. -/
theorem sealed_header_mutators_witness :
    (ofFlags 0x0B).b.flags < 2 ^ 16 ∧ isReady (ofFlags 0x0B) = true ∧
    (∀ s, isReady (setSeqNumber (ofFlags 0x0B) s) = true ∧
      seqNumber (setSeqNumber (ofFlags 0x0B) s) = s ∧
      digestOfRequests (setSeqNumber (ofFlags 0x0B) s) = digestOfRequests (ofFlags 0x0B) ∧
      numberOfRequests (setSeqNumber (ofFlags 0x0B) s) = numberOfRequests (ofFlags 0x0B) ∧
      (setSeqNumber (ofFlags 0x0B) s).b.flags = (ofFlags 0x0B).b.flags) :=
  ⟨by decide, by decide, (sealed_header_mutators (ofFlags 0x0B) (by decide) (by decide)).1⟩

/-- Claim C2 fails as stated: on the sealed message with flags word 2,
`setSeqNumber`, `setDigestOfRequests` and `setNumberOfRequests` change the
sequence number, the digest and the request count, and `setDataPPFlag` changes
flag bit 5, which lies outside the commit-path bits 2-3. -/
theorem sealed_message_rewritten :
    isReady (ofFlags 2) = true ∧
    seqNumber (setSeqNumber (ofFlags 2) 7) ≠ seqNumber (ofFlags 2) ∧
    digestOfRequests (setDigestOfRequests (ofFlags 2) [1]) ≠ digestOfRequests (ofFlags 2) ∧
    numberOfRequests (setNumberOfRequests (ofFlags 2) 3) ≠ numberOfRequests (ofFlags 2) ∧
    (setDataPPFlag (ofFlags 2)).b.flags.testBit 5 ≠ (ofFlags 2).b.flags.testBit 5 := by
  decide

/-! ## Null proposals and the sealed bit -/

theorem nullImpliesReady_iff (m : PrePrepareMsg) :
    NullImpliesReady m ↔ ¬ (m.b.flags.testBit 0 = false ∧ m.b.flags.testBit 1 = false) := by
  unfold NullImpliesReady
  rw [isNull_eq_testBit, isReady_eq_testBit]
  cases m.b.flags.testBit 0 <;> cases m.b.flags.testBit 1 <;> simp

/-- Claim C8, amended: `isNull()` implies `isReady()` exactly on the messages
whose flag bits 0 and 1 are not both 0, and every mutator defined in the header
keeps that implication once it holds. -/
theorem nullImpliesReady_preserved (m : PrePrepareMsg) (hf : m.b.flags < 2 ^ 16) :
    (NullImpliesReady m ↔ ¬ (m.b.flags.testBit 0 = false ∧ m.b.flags.testBit 1 = false)) ∧
    (NullImpliesReady m →
      (∀ c : VariantCall, NullImpliesReady (c.apply m)) ∧
      (∀ v, NullImpliesReady (setViewNumber m v)) ∧
      (∀ s, NullImpliesReady (setSeqNumber m s)) ∧
      (∀ d, NullImpliesReady (setDigestOfRequests m d)) ∧
      (∀ n, NullImpliesReady (setNumberOfRequests m n))) := by
  refine ⟨nullImpliesReady_iff m, fun h => ⟨fun c => ?_, fun _ => h, fun _ => h, fun _ => h,
    fun _ => h⟩⟩
  obtain ⟨-, -, hnull, hr, -⟩ := apply_agree c m hf
  intro hn
  rw [hr]
  exact h (hnull ▸ hn)

/-- Witness for `nullImpliesReady_preserved` at the sealed null flags word 2. -/
theorem nullImpliesReady_preserved_witness :
    (ofFlags 2).b.flags < 2 ^ 16 ∧ NullImpliesReady (ofFlags 2) ∧
    (∀ c : VariantCall, NullImpliesReady (c.apply (ofFlags 2))) :=
  ⟨by decide, by decide,
    ((nullImpliesReady_preserved (ofFlags 2) (by decide)).2 (by decide)).1⟩

/-- Claim C8 fails as stated: the message whose flags word is 0, as a message
rebuilt from received bytes can be, has `isNull()` true and `isReady()` false. -/
theorem null_message_not_ready :
    (ofFlags 0).b.flags.testBit 0 = false ∧ (ofFlags 0).b.flags.testBit 1 = false ∧
    isNull (ofFlags 0) = true ∧ isReady (ofFlags 0) = false := by
  decide

/-! ## View rebind -/

theorem code_lt (p : CommitPath) : p.code < 4 := by
  cases p <;> decide

theorem commitPathMask_eq : (2 ^ 16 - 1 - (0x3 <<< 2) : Nat) = 65523 := by decide

theorem testBit_low_updateFlags (f c i : Nat) (hi : i < 2) :
    (((f &&& (2 ^ 16 - 1 - (0x3 <<< 2))) ||| (c <<< 2)) % 2 ^ 16).testBit i = f.testBit i := by
  have hi16 : i < 16 := by omega
  rw [commitPathMask_eq, Nat.testBit_mod_two_pow, Nat.testBit_or, Nat.testBit_and,
    Nat.testBit_shiftLeft]
  have hc : decide (i ≥ 2) = false := by simp; omega
  have hmask : Nat.testBit 65523 i = true := by
    interval_cases i <;> decide
  simp [hi16, hc, hmask]

theorem updateFlags_commitPath (f c : Nat) (hc : c < 4) :
    ((((f &&& (2 ^ 16 - 1 - (0x3 <<< 2))) ||| (c <<< 2)) % 2 ^ 16) >>> 2) &&& 0x3 = c := by
  rw [commitPathMask_eq, show (0x3 : Nat) = 2 ^ 2 - 1 by rfl, Nat.and_pow_two_sub_one_eq_mod]
  apply Nat.eq_of_testBit_eq
  intro i
  rw [Nat.testBit_mod_two_pow, Nat.testBit_shiftRight, Nat.testBit_mod_two_pow, Nat.testBit_or,
    Nat.testBit_and, Nat.testBit_shiftLeft]
  by_cases hi : i < 2
  · have hmask : Nat.testBit 65523 (2 + i) = false := by
      interval_cases i <;> decide
    have h16 : 2 + i < 16 := by omega
    simp [hi, hmask, h16]
  · have hfalse : c.testBit i = false :=
      (lt_iff_testBit c 2).1 hc i (by omega)
    simp [hi, hfalse]

/-- Claim C9: on a sealed message `updateView(v, p)` succeeds, after it
`viewNumber()` is `v` and `firstPath()` is `p`, while the digest, the request
count, the batch bytes, `isNull()` and `isReady()` are unchanged; with the path
omitted it is `updateView(v, SLOW)`. -/
theorem updateView_rebinds (m : PrePrepareMsg) (hready : isReady m = true) (v : Nat)
    (p : CommitPath) :
    ∃ n, updateView m v p = some n ∧
      viewNumber n = v ∧ firstPath n = some p ∧
      digestOfRequests n = digestOfRequests m ∧ numberOfRequests n = numberOfRequests m ∧
      n.batch = m.batch ∧ n.b.endLocationOfLastRequest = m.b.endLocationOfLastRequest ∧
      isNull n = isNull m ∧ isReady n = true ∧
      updateViewDefault m v = updateView m v CommitPath.SLOW := by
  simp only [updateView, hready, if_true]
  refine ⟨_, rfl, rfl, ?_, rfl, rfl, rfl, rfl, ?_, ?_, ?_⟩
  rotate_right
  · simp only [updateViewDefault, updateView, hready, if_true]
  · unfold firstPath
    simp only []
    rw [updateFlags_commitPath _ _ (code_lt p)]
    cases p <;> rfl
  · rw [isNull_eq_testBit, isNull_eq_testBit]
    exact congrArg _ (testBit_low_updateFlags _ _ 0 (by omega))
  · rw [isReady_eq_testBit] at hready ⊢
    exact (testBit_low_updateFlags _ _ 1 (by omega)).trans hready

/-- Witness for `updateView_rebinds`: a sealed message on the optimistic fast
path is rebound to view 9 on the fast-with-threshold path. -/
theorem updateView_rebinds_witness :
    isReady (ofFlags 0x23) = true ∧
    ∃ n, updateView (ofFlags 0x23) 9 .FAST_WITH_THRESHOLD = some n ∧
      viewNumber n = 9 ∧ firstPath n = some .FAST_WITH_THRESHOLD ∧
      digestOfRequests n = digestOfRequests (ofFlags 0x23) ∧
      numberOfRequests n = numberOfRequests (ofFlags 0x23) ∧
      n.batch = (ofFlags 0x23).batch ∧
      n.b.endLocationOfLastRequest = (ofFlags 0x23).b.endLocationOfLastRequest ∧
      isNull n = isNull (ofFlags 0x23) ∧ isReady n = true ∧
      updateViewDefault (ofFlags 0x23) 9 = updateView (ofFlags 0x23) 9 CommitPath.SLOW :=
  ⟨by decide, updateView_rebinds (ofFlags 0x23) (by decide) 9 .FAST_WITH_THRESHOLD⟩

/-! ## Builder and iterator -/

theorem length_recordsOf (blobs : List (List Byte)) :
    (recordsOf blobs).length = recordsSize blobs := by
  induction blobs with
  | nil => rfl
  | cons blob rest ih => simp [recordsOf, recordsSize, ih]

theorem addRequests_spec (blobs : List (List Byte)) :
    ∀ m : PrePrepareMsg,
      m.b.endLocationOfLastRequest + recordsSize blobs ≤ m.capacity →
      m.capacity < 2 ^ 32 →
      m.b.numberOfRequests < 2 ^ 16 →
      ∃ n, addRequests m blobs = some n ∧
        n.batch = m.batch ++ recordsOf blobs ∧
        n.b.endLocationOfLastRequest = m.b.endLocationOfLastRequest + recordsSize blobs ∧
        n.b.numberOfRequests = (m.b.numberOfRequests + blobs.length) % 2 ^ 16 ∧
        n.b.flags = m.b.flags ∧ n.capacity = m.capacity := by
  induction blobs with
  | nil =>
    intro m _ _ hn
    exact ⟨m, rfl, by simp [recordsOf], by simp [recordsSize], by
      simp only [List.length_nil, Nat.add_zero]; exact (Nat.mod_eq_of_lt hn).symm, rfl, rfl⟩
  | cons blob rest ih =>
    intro m hfits hcap hn
    simp only [recordsSize] at hfits
    have hfit : blob.length ≤ remainingSizeForRequests m := by
      unfold remainingSizeForRequests
      rw [Nat.mod_eq_of_lt (by omega)]
      omega
    have hmod : (m.b.endLocationOfLastRequest + blob.length) % 2 ^ 32
        = m.b.endLocationOfLastRequest + blob.length :=
      Nat.mod_eq_of_lt (by omega)
    obtain ⟨n, hadd, hbatch, hend, hnum, hflags, hcapn⟩ :=
      ih { m with
            batch := m.batch ++ blob
            b := { m.b with
              endLocationOfLastRequest := (m.b.endLocationOfLastRequest + blob.length) % 2 ^ 32
              numberOfRequests := (m.b.numberOfRequests + 1) % 2 ^ 16 } }
        (by simp only [hmod]; omega) hcap (Nat.mod_lt _ (by norm_num))
    refine ⟨n, ?_, ?_, ?_, ?_, hflags, hcapn⟩
    · simp only [addRequests, addRequest, hfit, if_true]
      exact hadd
    · rw [hbatch]; simp [recordsOf]
    · rw [hend]; simp only [hmod, recordsSize]; omega
    · rw [hnum]; simp only [List.length_cons]; omega

theorem RequestRecord.length_pos {fmt : RecordFormat} (r : RequestRecord fmt) :
    0 < r.bytes.length := by
  cases hb : r.bytes with
  | nil =>
    have h := r.tagged []
    rw [hb, List.append_nil, fmt.declaredLength_nil] at h
    exact Option.noConfusion h
  | cons b rest => simp

theorem currentLength_at {fmt : RecordFormat} (it : RequestsIterator) (pre : List Byte)
    (r : RequestRecord fmt) (rest : List (List Byte))
    (hbatch : it.msg.batch = pre ++ recordsOf (r.bytes :: rest))
    (hloc : it.currLoc = pre.length)
    (hend : it.msg.b.endLocationOfLastRequest = pre.length + recordsSize (r.bytes :: rest)) :
    it.currentLength fmt = some r.bytes.length := by
  have hpos := r.length_pos
  have hnotEnd : it.atEnd = false := by
    unfold RequestsIterator.atEnd
    rw [hend, hloc]
    simp only [decide_eq_false_iff_not, recordsSize]
    omega
  have hwhole : it.msg.batch.take it.msg.b.endLocationOfLastRequest = it.msg.batch := by
    apply List.take_of_length_le
    rw [hend, hbatch, List.length_append, length_recordsOf]
  have hregion : (it.msg.batch.take it.msg.b.endLocationOfLastRequest).drop it.currLoc
      = r.bytes ++ recordsOf rest := by
    rw [hwhole, hbatch, hloc, List.drop_left, recordsOf]
  unfold RequestsIterator.currentLength
  rw [hnotEnd, hregion, r.tagged]
  have hle : it.currLoc + r.bytes.length ≤ it.msg.b.endLocationOfLastRequest := by
    rw [hend, hloc]; simp only [recordsSize]; omega
  simp [hle]

theorem getAndGoToNext_at {fmt : RecordFormat} (it : RequestsIterator) (pre : List Byte)
    (r : RequestRecord fmt) (rest : List (List Byte))
    (hbatch : it.msg.batch = pre ++ recordsOf (r.bytes :: rest))
    (hloc : it.currLoc = pre.length)
    (hend : it.msg.b.endLocationOfLastRequest = pre.length + recordsSize (r.bytes :: rest)) :
    it.getAndGoToNext fmt =
      (some r.bytes, { it with currLoc := it.currLoc + r.bytes.length }) := by
  have hlen := currentLength_at it pre r rest hbatch hloc hend
  have hcur : it.getCurrent fmt = some r.bytes := by
    unfold RequestsIterator.getCurrent
    rw [hlen]
    simp only [Option.some.injEq]
    rw [hbatch, hloc, List.drop_left, recordsOf]
    exact List.take_left' rfl
  unfold RequestsIterator.getAndGoToNext RequestsIterator.gotoNext
  rw [hcur, hlen]

theorem collect_records {fmt : RecordFormat} (rest : List (RequestRecord fmt)) :
    ∀ (pre : List Byte) (it : RequestsIterator) (fuel : Nat),
      it.msg.batch = pre ++ recordsOf (rest.map RequestRecord.bytes) →
      it.currLoc = pre.length →
      it.msg.b.endLocationOfLastRequest
        = pre.length + recordsSize (rest.map RequestRecord.bytes) →
      rest.length ≤ fuel →
      RequestsIterator.collect fmt fuel it = rest.map RequestRecord.bytes := by
  induction rest with
  | nil =>
    intro pre it fuel _ hloc hend _
    cases fuel with
    | zero => rfl
    | succ f =>
      have hatEnd : it.atEnd = true := by
        unfold RequestsIterator.atEnd
        rw [hend, hloc]
        simp [recordsSize]
      simp [RequestsIterator.collect, RequestsIterator.getAndGoToNext,
        RequestsIterator.getCurrent, RequestsIterator.currentLength, hatEnd]
  | cons r rest ih =>
    intro pre it fuel hbatch hloc hend hfuel
    cases fuel with
    | zero => simp at hfuel
    | succ f =>
      simp only [List.map_cons] at hbatch hend ⊢
      rw [RequestsIterator.collect, getAndGoToNext_at it pre r _ hbatch hloc hend]
      simp only [List.cons.injEq, true_and]
      apply ih (pre ++ r.bytes)
      · show it.msg.batch = _
        rw [hbatch, recordsOf, List.append_assoc]
      · show it.currLoc + r.bytes.length = _
        rw [hloc, List.length_append]
      · show it.msg.b.endLocationOfLastRequest = _
        rw [hend, List.length_append]; simp only [recordsSize]; omega
      · simpa using hfuel

theorem length_le_recordsSize {fmt : RecordFormat} (rs : List (RequestRecord fmt)) :
    rs.length ≤ recordsSize (rs.map RequestRecord.bytes) := by
  induction rs with
  | nil => simp [recordsSize]
  | cons r rest ih =>
    have := r.length_pos
    simp only [List.map_cons, recordsSize, List.length_cons]
    omega

theorem recordsSize_replicate (k : Nat) (blob : List Byte) :
    recordsSize (List.replicate k blob) = blob.length * k := by
  induction k with
  | zero => rfl
  | succ k ih =>
    rw [List.replicate_succ, recordsSize, ih, Nat.mul_succ]
    omega

theorem isReady_finish_flags (f : Nat) : (((f ||| 2) % 2 ^ 16) >>> 1 &&& 0x1 == 1) = true := by
  have h : ((f ||| 2) % 2 ^ 16).testBit 1 = true := by
    rw [Nat.testBit_mod_two_pow, Nat.testBit_or, show (2 : Nat) = 2 ^ 1 by rfl,
      Nat.testBit_two_pow]
    simp
  rw [← h]
  exact isReady_eq_testBit (ofFlags ((f ||| 2 ^ 1) % 2 ^ 16))

theorem seal_spec (calculateDigest : List Byte → Digest) (m : PrePrepareMsg)
    (h : isReady m = false) :
    ∃ n, finishAddingRequests calculateDigest m = some n ∧ isReady n = true ∧
      n.batch = m.batch ∧
      n.b.endLocationOfLastRequest = m.b.endLocationOfLastRequest ∧
      n.b.numberOfRequests = m.b.numberOfRequests ∧
      n.b.digestOfRequests = calculateDigest (m.batch.take m.b.endLocationOfLastRequest) := by
  simp only [finishAddingRequests, h, Bool.false_eq_true, if_false]
  exact ⟨_, rfl, isReady_finish_flags _, rfl, rfl, rfl, rfl⟩

theorem build_spec (calculateDigest : List Byte → Digest) (m : PrePrepareMsg) (hfresh : Fresh m)
    (hcap : m.capacity < 2 ^ 32) (blobs : List (List Byte))
    (hfit : recordsSize blobs ≤ m.capacity) :
    ∃ filled sealed, addRequests m blobs = some filled ∧
      finishAddingRequests calculateDigest filled = some sealed ∧
      isReady sealed = true ∧
      sealed.batch = recordsOf blobs ∧
      sealed.b.endLocationOfLastRequest = recordsSize blobs ∧
      sealed.b.numberOfRequests = blobs.length % 2 ^ 16 ∧
      sealed.b.digestOfRequests = calculateDigest (recordsOf blobs) := by
  obtain ⟨hready, hnum, hend, hbatch⟩ := hfresh
  obtain ⟨filled, hadd, hb, he, hn, hflags, -⟩ :=
    addRequests_spec blobs m (by omega) hcap (by omega)
  have hr : isReady filled = false := by
    unfold isReady at hready ⊢
    rw [hflags]; exact hready
  obtain ⟨sealed, hseal, hsr, hsb, hse, hsn, hsd⟩ := seal_spec calculateDigest filled hr
  rw [hbatch, List.nil_append] at hb
  rw [hend, Nat.zero_add] at he
  rw [hnum, Nat.zero_add] at hn
  refine ⟨filled, sealed, hadd, hseal, hsr, hsb.trans hb, hse.trans he, hsn.trans hn, ?_⟩
  rw [hsd, hb, he, ← length_recordsOf, List.take_length]

/-- Claim C10, amended: for every record format, every fresh message whose
capacity is a `uint32_t` value and every sequence of fewer than 2^16 request
records whose total size is at most the capacity, every `addRequest` succeeds,
`finishAddingRequests` seals the message, the iterator loop yields exactly the
same records in the same order (for every fuel of at least their number), and
`numberOfRequests()` is the number of records appended. -/
theorem builder_iterator_roundtrip (fmt : RecordFormat) (calculateDigest : List Byte → Digest)
    (m : PrePrepareMsg) (hfresh : Fresh m) (hcap : m.capacity < 2 ^ 32)
    (requests : List (RequestRecord fmt))
    (hfit : recordsSize (requests.map RequestRecord.bytes) ≤ m.capacity)
    (hcount : requests.length < 2 ^ 16) :
    ∃ filled sealed, addRequests m (requests.map RequestRecord.bytes) = some filled ∧
      finishAddingRequests calculateDigest filled = some sealed ∧
      isReady sealed = true ∧
      (∀ fuel, requests.length ≤ fuel →
        RequestsIterator.collect fmt fuel (RequestsIterator.create sealed)
          = requests.map RequestRecord.bytes) ∧
      RequestsIterator.requests fmt sealed = requests.map RequestRecord.bytes ∧
      numberOfRequests sealed = requests.length := by
  obtain ⟨filled, sealed, hadd, hseal, hready, hbatch, hend, hnum, -⟩ :=
    build_spec calculateDigest m hfresh hcap (requests.map RequestRecord.bytes) hfit
  have hwalk : ∀ fuel, requests.length ≤ fuel →
      RequestsIterator.collect fmt fuel (RequestsIterator.create sealed)
        = requests.map RequestRecord.bytes := by
    intro fuel hfuel
    apply collect_records requests [] (RequestsIterator.create sealed) fuel
    · show sealed.batch = _
      rw [hbatch, List.nil_append]
    · rfl
    · show sealed.b.endLocationOfLastRequest = _
      rw [hend, List.length_nil, Nat.zero_add]
    · exact hfuel
  refine ⟨filled, sealed, hadd, hseal, hready, hwalk, ?_, ?_⟩
  · unfold RequestsIterator.requests
    apply hwalk
    rw [hend]
    exact Nat.le_succ_of_le (length_le_recordsSize requests)
  · unfold numberOfRequests
    rw [hnum, List.length_map]
    exact Nat.mod_eq_of_lt hcount

/-- Witness for `builder_iterator_roundtrip`: three requests of 10, 20 and 30
bytes appended to a message on the fast-with-threshold path whose capacity is
their total size, 60 bytes. -/
theorem builder_iterator_roundtrip_witness :
    Fresh (create 0 1 1 .FAST_WITH_THRESHOLD 60) ∧
    (create 0 1 1 .FAST_WITH_THRESHOLD 60).capacity < 2 ^ 32 ∧
    ([firstOctetRecord (List.replicate 9 1) (by decide),
      firstOctetRecord (List.replicate 19 2) (by decide),
      firstOctetRecord (List.replicate 29 3) (by decide)].map
        (fun r => r.bytes.length)) = [10, 20, 30] ∧
    ∃ filled sealed,
      addRequests (create 0 1 1 .FAST_WITH_THRESHOLD 60)
        ([firstOctetRecord (List.replicate 9 1) (by decide),
          firstOctetRecord (List.replicate 19 2) (by decide),
          firstOctetRecord (List.replicate 29 3) (by decide)].map RequestRecord.bytes)
        = some filled ∧
      finishAddingRequests (fun _ => []) filled = some sealed ∧
      isReady sealed = true ∧
      (∀ fuel, [firstOctetRecord (List.replicate 9 1) (by decide),
          firstOctetRecord (List.replicate 19 2) (by decide),
          firstOctetRecord (List.replicate 29 3) (by decide)].length ≤ fuel →
        RequestsIterator.collect firstOctetFormat fuel (RequestsIterator.create sealed) =
          [firstOctetRecord (List.replicate 9 1) (by decide),
            firstOctetRecord (List.replicate 19 2) (by decide),
            firstOctetRecord (List.replicate 29 3) (by decide)].map RequestRecord.bytes) ∧
      RequestsIterator.requests firstOctetFormat sealed =
        [firstOctetRecord (List.replicate 9 1) (by decide),
          firstOctetRecord (List.replicate 19 2) (by decide),
          firstOctetRecord (List.replicate 29 3) (by decide)].map RequestRecord.bytes ∧
      numberOfRequests sealed =
        [firstOctetRecord (List.replicate 9 1) (by decide),
          firstOctetRecord (List.replicate 19 2) (by decide),
          firstOctetRecord (List.replicate 29 3) (by decide)].length :=
  ⟨by decide, by decide, by decide,
    builder_iterator_roundtrip firstOctetFormat (fun _ => [])
      (create 0 1 1 .FAST_WITH_THRESHOLD 60) (by decide) (by decide)
      [firstOctetRecord (List.replicate 9 1) (by decide),
        firstOctetRecord (List.replicate 19 2) (by decide),
        firstOctetRecord (List.replicate 29 3) (by decide)] (by decide) (by decide)⟩

theorem wrap_count (calculateDigest : List Byte → Digest) (blobs : List (List Byte))
    (hsize : recordsSize blobs = 65536) (hlen : blobs.length = 65536) :
    ∃ filled sealed, addRequests (create 0 1 1 .SLOW 65536) blobs = some filled ∧
      finishAddingRequests calculateDigest filled = some sealed ∧
      numberOfRequests sealed = 0 := by
  obtain ⟨filled, sealed, hadd, hseal, -, -, -, hnum, -⟩ :=
    build_spec calculateDigest (create 0 1 1 .SLOW 65536) (by decide) (by decide) blobs
      (by rw [hsize]; exact Nat.le_refl _)
  refine ⟨filled, sealed, hadd, hseal, ?_⟩
  unfold numberOfRequests
  rw [hnum, hlen]
  norm_num

/-- Claim C10 fails as stated: 65536 one-byte request records fit a capacity of
65536 bytes, every append and the seal succeed, and `numberOfRequests()` is 0,
not 65536: the count is the 16-bit field the getter returns. -/
theorem roundtrip_fails_on_count_overflow :
    (firstOctetRecord [] (by decide)).bytes = [1] ∧
    (create 0 1 1 .SLOW 65536).capacity < 2 ^ 32 ∧
    recordsSize ((List.replicate 65536 (firstOctetRecord [] (by decide))).map RequestRecord.bytes)
      ≤ (create 0 1 1 .SLOW 65536).capacity ∧
    ∃ filled sealed,
      addRequests (create 0 1 1 .SLOW 65536)
        ((List.replicate 65536 (firstOctetRecord [] (by decide))).map RequestRecord.bytes)
        = some filled ∧
      finishAddingRequests (fun _ => []) filled = some sealed ∧
      numberOfRequests sealed = 0 ∧
      numberOfRequests sealed ≠
        (List.replicate 65536 (firstOctetRecord [] (by decide))).length := by
  have hsize : recordsSize
      ((List.replicate 65536 (firstOctetRecord [] (by decide))).map RequestRecord.bytes)
        = 65536 := by
    rw [List.map_replicate, recordsSize_replicate]
    rfl
  refine ⟨rfl, by decide, ?_, ?_⟩
  · rw [hsize]; exact Nat.le_refl _
  · obtain ⟨filled, sealed, hadd, hseal, hnum⟩ :=
      wrap_count (fun _ => []) _ hsize (by rw [List.length_map, List.length_replicate])
    refine ⟨filled, sealed, hadd, hseal, hnum, ?_⟩
    rw [hnum, List.length_replicate]
    norm_num

/-! ## Validation -/

theorem not_reservedBitsZero_of_bit (m : PrePrepareMsg) (i : Nat) (hi : 6 ≤ i)
    (hbit : m.b.flags.testBit i = true) : ¬ ReservedBitsZero m := by
  intro h
  unfold ReservedBitsZero at h
  have hz : (m.b.flags >>> 6).testBit (i - 6) = false := by rw [h]; exact Nat.zero_testBit _
  rw [Nat.testBit_shiftRight, show 6 + (i - 6) = i by omega, hbit] at hz
  exact Bool.noConfusion hz

theorem validateChecks_bad_flags (fmt : RecordFormat) (calculateDigest : List Byte → Digest)
    (nullDigest : Digest) (m : PrePrepareMsg)
    (h : ¬ ReservedBitsZero m ∨ variantCode m = 3 ∨ commitPathCode m = 3) :
    validateChecks fmt calculateDigest nullDigest m = .error .BadFlags := by
  unfold validateChecks
  rw [if_pos h]

/-- Claim C11: a message whose flags have a reserved bit (6-15) set, or whose
message-variant bits 4-5 or commit-path bits 2-3 hold the code 11, is rejected
by `validate`, with the reason BadFlags, and is left as it was. -/
theorem validate_rejects_bad_flags {ReplicasInfo : Type} (fmt : RecordFormat)
    (calculateDigest : List Byte → Digest) (nullDigest : Digest) (m : PrePrepareMsg)
    (replicasInfo : ReplicasInfo)
    (hbad : (∃ i, 6 ≤ i ∧ m.b.flags.testBit i = true) ∨ variantCode m = 3 ∨
      commitPathCode m = 3) :
    (validate fmt calculateDigest nullDigest m replicasInfo).1 = .error .BadFlags ∧
    (validate fmt calculateDigest nullDigest m replicasInfo).1 ≠ .ok () ∧
    (validate fmt calculateDigest nullDigest m replicasInfo).2 = m := by
  have h : ¬ ReservedBitsZero m ∨ variantCode m = 3 ∨ commitPathCode m = 3 := by
    rcases hbad with ⟨i, hi, hbit⟩ | hv | hc
    · exact Or.inl (not_reservedBitsZero_of_bit m i hi hbit)
    · exact Or.inr (Or.inl hv)
    · exact Or.inr (Or.inr hc)
  have hrej := validateChecks_bad_flags fmt calculateDigest nullDigest m h
  refine ⟨hrej, ?_, rfl⟩
  show validateChecks fmt calculateDigest nullDigest m ≠ .ok ()
  rw [hrej]
  exact fun e => Except.noConfusion e

/-- Witness for `validate_rejects_bad_flags`: the flags word 0x8003 has the
reserved bit 15 set. -/
theorem validate_rejects_bad_flags_witness :
    ((∃ i, 6 ≤ i ∧ (ofFlags 0x8003).b.flags.testBit i = true) ∨
      variantCode (ofFlags 0x8003) = 3 ∨ commitPathCode (ofFlags 0x8003) = 3) ∧
    (validate firstOctetFormat (fun _ => []) [] (ofFlags 0x8003) ()).1 = .error .BadFlags ∧
    (validate firstOctetFormat (fun _ => []) [] (ofFlags 0x8003) ()).1 ≠ .ok () ∧
    (validate firstOctetFormat (fun _ => []) [] (ofFlags 0x8003) ()).2 = ofFlags 0x8003 :=
  ⟨Or.inl ⟨15, by decide, by decide⟩,
    validate_rejects_bad_flags firstOctetFormat (fun _ => []) [] (ofFlags 0x8003) ()
      (Or.inl ⟨15, by decide, by decide⟩)⟩

/-- Claim C12: `shouldValidateAsync()` returns true for every message, whatever
its flags, view, sequence or content. -/
theorem shouldValidateAsync_true (m : PrePrepareMsg) : shouldValidateAsync m = true := by
  cases m
  rfl

/-! ## Setting and resetting the message variant -/

theorem lt_of_reservedBitsZero (m : PrePrepareMsg) (h : ReservedBitsZero m) :
    m.b.flags < 2 ^ 6 := by
  unfold ReservedBitsZero at h
  rw [Nat.shiftRight_eq_div_pow] at h
  exact (Nat.div_eq_zero_iff (by norm_num)).1 h

theorem resetConsensusOnlyFlag_idem (m : PrePrepareMsg) :
    resetConsensusOnlyFlag (resetConsensusOnlyFlag m) = resetConsensusOnlyFlag m := by
  have hflags : (resetConsensusOnlyFlag (resetConsensusOnlyFlag m)).b.flags =
      (resetConsensusOnlyFlag m).b.flags := by
    apply Nat.eq_of_testBit_eq
    intro i
    rw [testBit_resetConsensusOnlyFlag, testBit_resetConsensusOnlyFlag]
    cases decide (i < 16) <;> cases m.b.flags.testBit i <;> cases decide (i = 4) <;>
      cases decide (i = 5) <;> rfl
  show ({ (resetConsensusOnlyFlag m) with
      b := { (resetConsensusOnlyFlag m).b with
        flags := (resetConsensusOnlyFlag (resetConsensusOnlyFlag m)).b.flags } } : PrePrepareMsg)
    = resetConsensusOnlyFlag m
  rw [hflags]

/-- Claim C13: on a flags word whose reserved bits 6-15 are zero, whatever bits
4-5 hold, after `resetConsensusOnlyFlag()` `isLegacyPPMsg()` is true and both
`isConsensusPPFlagSet()` and `isDataPPFlagSet()` are false; resetting twice is
resetting once. -/
theorem resetConsensusOnlyFlag_restores_legacy (m : PrePrepareMsg) (hres : ReservedBitsZero m) :
    isLegacyPPMsg (resetConsensusOnlyFlag m) = true ∧
    isConsensusPPFlagSet (resetConsensusOnlyFlag m) = false ∧
    isDataPPFlagSet (resetConsensusOnlyFlag m) = false ∧
    variantCode (resetConsensusOnlyFlag m) = 0 ∧
    resetConsensusOnlyFlag (resetConsensusOnlyFlag m) = resetConsensusOnlyFlag m := by
  have hlt := lt_of_reservedBitsZero m hres
  have h4 : (resetConsensusOnlyFlag m).b.flags.testBit 4 = false := by
    rw [testBit_resetConsensusOnlyFlag]; simp
  have h5 : (resetConsensusOnlyFlag m).b.flags.testBit 5 = false := by
    rw [testBit_resetConsensusOnlyFlag]; simp
  refine ⟨?_, ?_, ?_, ?_, resetConsensusOnlyFlag_idem m⟩
  · rw [isLegacyPPMsg_iff_high_bits]
    intro i hi
    rw [testBit_resetConsensusOnlyFlag]
    by_cases e4 : i = 4
    · simp [e4]
    by_cases e5 : i = 5
    · simp [e5]
    have h0 : m.b.flags.testBit i = false := (lt_iff_testBit _ 6).1 hlt i (by omega)
    simp [h0]
  · rw [isConsensusPPFlagSet_eq_testBit]; exact h4
  · rw [isDataPPFlagSet_eq_testBit]; exact h5
  · rw [variantCode_eq, h4, h5]; rfl

/-- Witness for `resetConsensusOnlyFlag_restores_legacy` at the flags word 0x3B,
whose bits 4-5 hold the undefined code 11. -/
theorem resetConsensusOnlyFlag_restores_legacy_witness :
    ReservedBitsZero (ofFlags 0x3B) ∧ variantCode (ofFlags 0x3B) = 3 ∧
    isLegacyPPMsg (resetConsensusOnlyFlag (ofFlags 0x3B)) = true ∧
    isConsensusPPFlagSet (resetConsensusOnlyFlag (ofFlags 0x3B)) = false ∧
    isDataPPFlagSet (resetConsensusOnlyFlag (ofFlags 0x3B)) = false ∧
    variantCode (resetConsensusOnlyFlag (ofFlags 0x3B)) = 0 ∧
    resetConsensusOnlyFlag (resetConsensusOnlyFlag (ofFlags 0x3B)) =
      resetConsensusOnlyFlag (ofFlags 0x3B) :=
  ⟨by decide, by decide, resetConsensusOnlyFlag_restores_legacy (ofFlags 0x3B) (by decide)⟩

/-- Claim C14: on a message with `isLegacyPPMsg()` true, after
`setConsensusOnlyFlag()` bits 4-5 are 01, `isConsensusPPFlagSet()` is true and
`isDataPPFlagSet()` and `isLegacyPPMsg()` are false; after `setDataPPFlag()`
bits 4-5 are 10, `isDataPPFlagSet()` is true and `isConsensusPPFlagSet()` and
`isLegacyPPMsg()` are false. -/
theorem set_variant_on_legacy (m : PrePrepareMsg) (hleg : isLegacyPPMsg m = true) :
    (variantCode (setConsensusOnlyFlag m) = 1 ∧
      isConsensusPPFlagSet (setConsensusOnlyFlag m) = true ∧
      isDataPPFlagSet (setConsensusOnlyFlag m) = false ∧
      isLegacyPPMsg (setConsensusOnlyFlag m) = false) ∧
    (variantCode (setDataPPFlag m) = 2 ∧
      isDataPPFlagSet (setDataPPFlag m) = true ∧
      isConsensusPPFlagSet (setDataPPFlag m) = false ∧
      isLegacyPPMsg (setDataPPFlag m) = false) := by
  have hhigh := (isLegacyPPMsg_iff_high_bits m).1 hleg
  have hf : m.b.flags < 2 ^ 16 :=
    lt_of_lt_of_le ((isLegacyPPMsg_iff_lt m).1 hleg) (by norm_num)
  have m4 : m.b.flags.testBit 4 = false := hhigh 4 (by omega)
  have m5 : m.b.flags.testBit 5 = false := hhigh 5 (by omega)
  have c4 : (setConsensusOnlyFlag m).b.flags.testBit 4 = true := by
    rw [testBit_setConsensusOnlyFlag m hf]; simp
  have c5 : (setConsensusOnlyFlag m).b.flags.testBit 5 = false := by
    rw [testBit_setConsensusOnlyFlag m hf, m5]; simp
  have d4 : (setDataPPFlag m).b.flags.testBit 4 = false := by
    rw [testBit_setDataPPFlag m hf, m4]; simp
  have d5 : (setDataPPFlag m).b.flags.testBit 5 = true := by
    rw [testBit_setDataPPFlag m hf]; simp
  have notLegacy : ∀ n : PrePrepareMsg, (∃ i, 4 ≤ i ∧ n.b.flags.testBit i = true) →
      isLegacyPPMsg n = false := by
    intro n ⟨i, hi, hbit⟩
    cases hn : isLegacyPPMsg n
    · rfl
    · have := (isLegacyPPMsg_iff_high_bits n).1 hn i hi
      rw [hbit] at this
      exact Bool.noConfusion this
  refine ⟨⟨?_, ?_, ?_, notLegacy _ ⟨4, by omega, c4⟩⟩, ⟨?_, ?_, ?_, notLegacy _ ⟨5, by omega, d5⟩⟩⟩
  · rw [variantCode_eq, c4, c5]; rfl
  · rw [isConsensusPPFlagSet_eq_testBit]; exact c4
  · rw [isDataPPFlagSet_eq_testBit]; exact c5
  · rw [variantCode_eq, d4, d5]; rfl
  · rw [isDataPPFlagSet_eq_testBit]; exact d5
  · rw [isConsensusPPFlagSet_eq_testBit]; exact d4

/-- Witness for `set_variant_on_legacy` at the legacy flags word 0x0B. -/
theorem set_variant_on_legacy_witness :
    isLegacyPPMsg (ofFlags 0x0B) = true ∧
    (variantCode (setConsensusOnlyFlag (ofFlags 0x0B)) = 1 ∧
      isConsensusPPFlagSet (setConsensusOnlyFlag (ofFlags 0x0B)) = true ∧
      isDataPPFlagSet (setConsensusOnlyFlag (ofFlags 0x0B)) = false ∧
      isLegacyPPMsg (setConsensusOnlyFlag (ofFlags 0x0B)) = false) ∧
    (variantCode (setDataPPFlag (ofFlags 0x0B)) = 2 ∧
      isDataPPFlagSet (setDataPPFlag (ofFlags 0x0B)) = true ∧
      isConsensusPPFlagSet (setDataPPFlag (ofFlags 0x0B)) = false ∧
      isLegacyPPMsg (setDataPPFlag (ofFlags 0x0B)) = false) :=
  ⟨by decide, set_variant_on_legacy (ofFlags 0x0B) (by decide)⟩

/-! ## Header prefix and field setters -/

/-- Claim C15: `prePrepareHeaderPrefix` is the offset of `numberOfRequests` in
the packed header: for every envelope and digest width it is the sum of the
widths of the fields declared before `numberOfRequests`, envelope header
through `digestOfRequests`; it is 76 for a 6-byte envelope and a 32-byte
digest. -/
theorem prePrepareHeaderPrefix_is_offset (envelope digestSize : Nat) :
    (headerFieldWidths envelope digestSize).take indexOfNumberOfRequests =
      [envelope, sizeofViewNum, sizeofSeqNum, sizeofEpochNum, sizeofFlags, sizeofBatchCidLength,
        sizeofTimeDataLength, digestSize] ∧
    (headerFieldWidths envelope digestSize).drop indexOfNumberOfRequests =
      [sizeofNumberOfRequests, sizeofEndLocationOfLastRequest] ∧
    prePrepareHeaderPrefix envelope digestSize =
      offsetOfField (headerFieldWidths envelope digestSize) indexOfNumberOfRequests ∧
    prePrepareHeaderPrefix envelope digestSize = envelope + 8 + 8 + 8 + 2 + 8 + 4 + digestSize ∧
    prePrepareHeaderPrefix 6 32 = 76 := by
  refine ⟨rfl, rfl, ?_, ?_, by decide⟩
  · simp only [prePrepareHeaderPrefix, offsetOfField, sizeofHeader, headerFieldWidths,
      indexOfNumberOfRequests, sizeofViewNum, sizeofSeqNum, sizeofEpochNum, sizeofFlags,
      sizeofBatchCidLength, sizeofTimeDataLength, sizeofNumberOfRequests,
      sizeofEndLocationOfLastRequest, List.take_succ_cons, List.take_zero, List.sum_cons,
      List.sum_nil]
    omega
  · simp only [prePrepareHeaderPrefix, sizeofHeader, headerFieldWidths, sizeofViewNum,
      sizeofSeqNum, sizeofEpochNum, sizeofFlags, sizeofBatchCidLength, sizeofTimeDataLength,
      sizeofNumberOfRequests, sizeofEndLocationOfLastRequest, List.sum_cons, List.sum_nil]
    omega

theorem agreeOutsideFields_of_eq (m n : PrePrepareMsg) (hflags : n.b.flags = m.b.flags)
    (hheader : n.b.header = m.b.header) (hepoch : n.b.epochNum = m.b.epochNum)
    (hcid : n.b.batchCidLength = m.b.batchCidLength)
    (htime : n.b.timeDataLength = m.b.timeDataLength)
    (hend : n.b.endLocationOfLastRequest = m.b.endLocationOfLastRequest)
    (hcap : n.capacity = m.capacity) (hbatch : n.batch = m.batch) :
    AgreeOutsideFields m n := by
  refine ⟨hflags, ?_, ?_, ?_, ?_, ?_, hheader, hepoch, hcid, htime, hend, hcap, hbatch⟩
  · unfold isNull; rw [hflags]
  · unfold isReady; rw [hflags]
  · unfold isLegacyPPMsg; rw [hflags]
  · unfold isConsensusPPFlagSet; rw [hflags]
  · unfold isDataPPFlagSet; rw [hflags]

/-- Claim C16: each of `setViewNumber`, `setSeqNumber`, `setNumberOfRequests`
and `setDigestOfRequests` makes its getter return the value set and leaves the
other three fields, the flags and the queries reading them, `epochNum`,
`batchCidLength`, `timeDataLength` and `endLocationOfLastRequest` unchanged. -/
theorem field_setters_roundtrip (m : PrePrepareMsg) :
    (∀ x, viewNumber (setViewNumber m x) = x ∧
      seqNumber (setViewNumber m x) = seqNumber m ∧
      numberOfRequests (setViewNumber m x) = numberOfRequests m ∧
      digestOfRequests (setViewNumber m x) = digestOfRequests m ∧
      AgreeOutsideFields m (setViewNumber m x)) ∧
    (∀ x, seqNumber (setSeqNumber m x) = x ∧
      viewNumber (setSeqNumber m x) = viewNumber m ∧
      numberOfRequests (setSeqNumber m x) = numberOfRequests m ∧
      digestOfRequests (setSeqNumber m x) = digestOfRequests m ∧
      AgreeOutsideFields m (setSeqNumber m x)) ∧
    (∀ x, numberOfRequests (setNumberOfRequests m x) = x ∧
      viewNumber (setNumberOfRequests m x) = viewNumber m ∧
      seqNumber (setNumberOfRequests m x) = seqNumber m ∧
      digestOfRequests (setNumberOfRequests m x) = digestOfRequests m ∧
      AgreeOutsideFields m (setNumberOfRequests m x)) ∧
    (∀ x, digestOfRequests (setDigestOfRequests m x) = x ∧
      viewNumber (setDigestOfRequests m x) = viewNumber m ∧
      seqNumber (setDigestOfRequests m x) = seqNumber m ∧
      numberOfRequests (setDigestOfRequests m x) = numberOfRequests m ∧
      AgreeOutsideFields m (setDigestOfRequests m x)) := by
  refine ⟨fun x => ⟨rfl, rfl, rfl, rfl, ?_⟩, fun x => ⟨rfl, rfl, rfl, rfl, ?_⟩,
    fun x => ⟨rfl, rfl, rfl, rfl, ?_⟩, fun x => ⟨rfl, rfl, rfl, rfl, ?_⟩⟩ <;>
  exact agreeOutsideFields_of_eq _ _ rfl rfl rfl rfl rfl rfl rfl rfl

end PrePrepareMsg

namespace bcst

namespace TestReplica

open PrePrepareMsg (Byte)

/-! ## The test replica -/

theorem memcpy_newCharArray (data : List Byte) (size : Nat) :
    memcpy (newCharArray size) data size = data.take size := by
  unfold memcpy newCharArray
  rw [List.drop_eq_nil_of_le (by rw [List.length_replicate]), List.append_nil]

theorem msg_create_eq_entry (s : Send) : Msg.create s.m s.size s.replicaId = s.entry := by
  unfold Msg.create Send.entry
  rw [memcpy_newCharArray]

theorem run_cons (r : TestReplica) (c : Call) (calls : List Call) :
    run r (c :: calls) = run (step r c) calls := rfl

theorem run_sent_messages (calls : List Call) :
    ∀ r : TestReplica,
      (run r calls).sent_messages_ = r.sent_messages_ ++ (sendsOf calls).map Send.entry := by
  induction calls with
  | nil => intro r; simp [run, sendsOf]
  | cons c rest ih =>
    intro r
    rw [run_cons, ih]
    cases c with
    | sendStateTransferMessage m size replicaId =>
      have h := msg_create_eq_entry { m := m, size := size, replicaId := replicaId }
      simp only [step, sendStateTransferMessage, sendsOf, List.map_cons, List.append_assoc,
        List.singleton_append]
      rw [h]
    | _ => rfl

theorem sendsOf_map_call (sends : List Send) : sendsOf (sends.map Send.call) = sends := by
  induction sends with
  | nil => rfl
  | cons s rest ih => simp only [List.map_cons, Send.call, sendsOf, ih]

theorem run_flag (calls : List Call) :
    ∀ r : TestReplica,
      (run r calls).onTransferringCompleteCalled_ =
        (r.onTransferringCompleteCalled_ || calls.any Call.isComplete) := by
  induction calls with
  | nil => intro r; simp [run]
  | cons c rest ih =>
    intro r
    rw [run_cons, ih, List.any_cons]
    cases c <;>
      simp [step, onTransferringComplete, freeStateTransferMsg, sendStateTransferMessage,
        changeStateTransferTimerPeriod, addOneShotTimer, checkForKeyExchange, Call.isComplete]

theorem any_isComplete_iff (calls : List Call) :
    calls.any Call.isComplete = true ↔ ∃ k, Call.onTransferringComplete k ∈ calls := by
  rw [List.any_eq_true]
  constructor
  · rintro ⟨c, hmem, hc⟩
    cases c with
    | onTransferringComplete k => exact ⟨k, hmem⟩
    | _ => exact Bool.noConfusion hc
  · rintro ⟨k, hmem⟩
    exact ⟨_, hmem, rfl⟩

/-- Claim C17: after a sequence of `sendStateTransferMessage` calls on a fresh
`TestReplica`, `sent_messages_` has one entry per call, in call order, entry i
holding `len_ = size_i`, `to_ = replicaId_i` and as `data_` a copy of the first
`size_i` bytes of `m_i`; any further calls keep the entries already there, and
a call other than `sendStateTransferMessage` leaves `sent_messages_` as it
is. -/
theorem sent_messages_recorded (sends : List Send) (r : TestReplica) (calls : List Call) :
    (run create (sends.map Send.call)).sent_messages_ = sends.map Send.entry ∧
    (run create (sends.map Send.call)).sent_messages_.length = sends.length ∧
    (∀ i (h : i < sends.length),
      (run create (sends.map Send.call)).sent_messages_[i]?.map Msg.len_
          = some (sends.get ⟨i, h⟩).size ∧
      (run create (sends.map Send.call)).sent_messages_[i]?.map Msg.to_
          = some (sends.get ⟨i, h⟩).replicaId ∧
      (run create (sends.map Send.call)).sent_messages_[i]?.map Msg.data_
          = some ((sends.get ⟨i, h⟩).m.take (sends.get ⟨i, h⟩).size)) ∧
    (run r calls).sent_messages_ = r.sent_messages_ ++ (sendsOf calls).map Send.entry ∧
    (∀ c : Call, (∀ m size replicaId, c ≠ .sendStateTransferMessage m size replicaId) →
      (step r c).sent_messages_ = r.sent_messages_) := by
  have hall : (run create (sends.map Send.call)).sent_messages_ = sends.map Send.entry := by
    rw [run_sent_messages, sendsOf_map_call]
    rfl
  refine ⟨hall, by rw [hall, List.length_map], ?_, run_sent_messages calls r, ?_⟩
  · intro i h
    rw [hall, List.getElem?_map, List.getElem?_eq_getElem h]
    exact ⟨rfl, rfl, rfl⟩
  · intro c hc
    cases c with
    | sendStateTransferMessage m size replicaId => exact absurd rfl (hc m size replicaId)
    | _ => rfl

/-- Witness for `sent_messages_recorded`: two sends, the second of a prefix of
its buffer, and a timer call on a replica that has already sent a message. -/
theorem sent_messages_recorded_witness :
    (run create [.sendStateTransferMessage [1, 2, 3] 3 7,
        .sendStateTransferMessage [4, 5, 6, 8] 2 9]).sent_messages_ =
      [{ data_ := [1, 2, 3], len_ := 3, to_ := 7 }, { data_ := [4, 5], len_ := 2, to_ := 9 }] ∧
    (step (run create [.sendStateTransferMessage [1, 2, 3] 3 7]) (.addOneShotTimer 5)).sent_messages_
      = (run create [.sendStateTransferMessage [1, 2, 3] 3 7]).sent_messages_ :=
  ⟨(sent_messages_recorded
      [{ m := [1, 2, 3], size := 3, replicaId := 7 }, { m := [4, 5, 6, 8], size := 2, replicaId := 9 }]
      create []).1,
    (sent_messages_recorded [] (run create [.sendStateTransferMessage [1, 2, 3] 3 7]) []).2.2.2.2
      (.addOneShotTimer 5) (fun _ _ _ h => Call.noConfusion h)⟩

/-- Claim C18: `onTransferringCompleteCalled_` is false on a fresh
`TestReplica`; after any sequence of calls on it the flag is true if and only
if `onTransferringComplete` was among the calls, whatever checkpoint number it
was given; once true, no call makes it false again. -/
theorem completion_flag_latch (calls : List Call) (r : TestReplica) (c : Call) :
    create.onTransferringCompleteCalled_ = false ∧
    ((run create calls).onTransferringCompleteCalled_ = true ↔
      ∃ k, Call.onTransferringComplete k ∈ calls) ∧
    (∀ k, (r.onTransferringComplete k).onTransferringCompleteCalled_ = true) ∧
    (r.onTransferringCompleteCalled_ = true → (step r c).onTransferringCompleteCalled_ = true) ∧
    (r.onTransferringCompleteCalled_ = true →
      (run r calls).onTransferringCompleteCalled_ = true) := by
  refine ⟨rfl, ?_, fun _ => rfl, ?_, ?_⟩
  · rw [run_flag, ← any_isComplete_iff]
    simp [create]
  · intro h
    have := run_flag [c] r
    rw [h] at this
    simpa [run] using this
  · intro h
    rw [run_flag, h]
    rfl

/-- Witness for `completion_flag_latch`: a send, a completion for checkpoint 4
and a timer call; the flag is set and the later calls keep it. -/
theorem completion_flag_latch_witness :
    (run create [.sendStateTransferMessage [1] 1 2, .onTransferringComplete 4,
      .addOneShotTimer 5]).onTransferringCompleteCalled_ = true ∧
    (run create [.sendStateTransferMessage [1] 1 2, .checkForKeyExchange]
      ).onTransferringCompleteCalled_ = false ∧
    (step (create.onTransferringComplete 0) .checkForKeyExchange).onTransferringCompleteCalled_
      = true :=
  ⟨(completion_flag_latch [.sendStateTransferMessage [1] 1 2, .onTransferringComplete 4,
      .addOneShotTimer 5] create .checkForKeyExchange).2.1.2 ⟨4, by decide⟩,
    by decide,
    (completion_flag_latch [] (create.onTransferringComplete 0) .checkForKeyExchange).2.2.2.1
      (by decide)⟩

end TestReplica

end bcst
